import Mathlib

/- Shallow embedding of the invoice_bot extraction-to-validation pipeline
   (src/invoice_bot/src/extractor.py, parser.py, validator.py, main.py).

   Modelling conventions:
   * Python strings are Lean `String`s (both measure length in code points).
   * Python floats are modelled exactly: decimal literals parse to rationals
     (no binary rounding), with explicit `nan` / `inf` / `ninf` values for the
     special literals accepted by `float(...)`.  The regex character classes
     `\d` and `\s` are modelled by their ASCII parts, the alphabet that the
     invoice patterns target.
   * Python dicts are association lists over a `PyVal` value universe,
     with first-occurrence get/set, mirroring insertion-ordered dicts.
   * Python exceptions are `Except PyErr` values; a `try/except ValueError`
     is a `match` on the thrown constructor.
   * Regular expressions used by `Parser._intelligent_amount_extraction` are
     given Python's leftmost, greedy-first backtracking semantics via a
     priority-ordered list-of-results matcher. -/

/-- Python str whitespace (ASCII part), the class used by `str.strip`,
`str.split` and the regex class `\s`. -/
def isPyWs (c : Char) : Bool :=
  c = ' ' || c = '\t' || c = '\n' || c = '\r' || c = '\x0b' || c = '\x0c'

/-- List-level model of Python `str.strip()`. -/
def pyStripList (l : List Char) : List Char :=
  ((l.dropWhile isPyWs).reverse.dropWhile isPyWs).reverse

/-- Python `str.strip()`. -/
def pyStrip (s : String) : String := String.mk (pyStripList s.data)

/-- Whether a string contains a character that is not Python whitespace;
equivalent to `s.strip()` being truthy. -/
def hasNonWs (s : String) : Bool := s.data.any (fun c => !(isPyWs c))

/-- Python `sep.join(l)`. -/
def joinSep (sep : String) : List String → String
  | [] => ""
  | x :: xs => xs.foldl (fun acc y => acc ++ sep ++ y) x

/-- Accumulator for `str.split()` (split on whitespace runs, dropping empties). -/
def pySplitWsAux : List Char → List Char → List (List Char)
  | [], acc => if acc.isEmpty then [] else [acc.reverse]
  | c :: rest, acc =>
      if isPyWs c then
        if acc.isEmpty then pySplitWsAux rest [] else acc.reverse :: pySplitWsAux rest []
      else pySplitWsAux rest (c :: acc)

/-- Python `text.split()` (no separator argument). -/
def pySplitWs (s : String) : List String := (pySplitWsAux s.data []).map String.mk

/-- Python `len(text.split())`, the word count used by the extractor. -/
def wordCount (s : String) : Nat := (pySplitWsAux s.data []).length

/-- Model of a CPython float value: decimal parses are kept exact as
rationals; the special literals give `nan` and the two infinities. -/
inductive PyFloat where
  | finite (q : ℚ)
  | nan
  | inf
  | ninf
deriving DecidableEq, Repr

/-- Numeric value of an ASCII digit. -/
def digitVal (c : Char) : Nat := c.toNat - 48

/-- Consume further digits of a digit run, allowing single underscores
strictly between digits as `float(...)` does; returns value, digit count and
the unconsumed remainder. -/
def digitRunGo : List Char → Nat → Nat → Nat × Nat × List Char
  | '_' :: c :: rest, acc, n =>
      if c.isDigit then digitRunGo rest (acc * 10 + digitVal c) (n + 1)
      else (acc, n, '_' :: c :: rest)
  | c :: rest, acc, n =>
      if c.isDigit then digitRunGo rest (acc * 10 + digitVal c) (n + 1)
      else (acc, n, c :: rest)
  | [], acc, n => (acc, n, [])

/-- Parse a nonempty digit run (underscores allowed between digits). -/
def digitRun : List Char → Option (Nat × Nat × List Char)
  | c :: rest => if c.isDigit then some (digitRunGo rest (digitVal c) 1) else none
  | [] => none

/-- Parse the mantissa part of a float literal: `digits`, `digits.`,
`digits.digits` or `.digits`; returns the combined digit value, the count
of fractional digits, and the remainder. -/
def parseMantissa (cs : List Char) : Option (Nat × Nat × List Char) :=
  match digitRun cs with
  | some (i, _, rest) =>
      match rest with
      | '.' :: rest2 =>
          match digitRun rest2 with
          | some (f, nf, rest3) => some (i * 10 ^ nf + f, nf, rest3)
          | none => some (i, 0, rest2)
      | _ => some (i, 0, rest)
  | none =>
      match cs with
      | '.' :: rest2 =>
          match digitRun rest2 with
          | some (f, nf, rest3) => some (f, nf, rest3)
          | none => none
      | _ => none

/-- Parse the tail of an exponent (after `e`/`E`): optional sign and digits. -/
def parseExpTail (cs : List Char) : Option (Int × List Char) :=
  match cs with
  | '+' :: rest => (digitRun rest).map (fun p => ((p.1 : Int), p.2.2))
  | '-' :: rest => (digitRun rest).map (fun p => (-(p.1 : Int), p.2.2))
  | rest => (digitRun rest).map (fun p => ((p.1 : Int), p.2.2))

/-- Parse an optional exponent part. -/
def parseExpPart (cs : List Char) : Option (Int × List Char) :=
  match cs with
  | 'e' :: rest => parseExpTail rest
  | 'E' :: rest => parseExpTail rest
  | cs => some (0, cs)

/-- The exact rational value `sign * (m / 10^nf) * 10^e`, built from an
integer numerator and a natural denominator (no rational arithmetic). -/
def decimalValue (neg : Bool) (m nf : Nat) (e : Int) : ℚ :=
  if 0 ≤ e then
    if neg then mkRat (-((m * 10 ^ e.toNat : Nat) : Int)) (10 ^ nf)
    else mkRat ((m * 10 ^ e.toNat : Nat) : Int) (10 ^ nf)
  else
    if neg then mkRat (-((m : Nat) : Int)) (10 ^ (nf + (-e).toNat))
    else mkRat ((m : Nat) : Int) (10 ^ (nf + (-e).toNat))

/-- Parse the body of a float literal after the optional sign. -/
def pyFloatTail (cs : List Char) (neg : Bool) : Option PyFloat :=
  let low := cs.map Char.toLower
  if low = "inf".data || low = "infinity".data then
    some (if neg then PyFloat.ninf else PyFloat.inf)
  else if low = "nan".data then some PyFloat.nan
  else
    match parseMantissa cs with
    | some (m, nf, rest) =>
        match parseExpPart rest with
        | some (e, []) => some (PyFloat.finite (decimalValue neg m nf e))
        | _ => none
    | none => none

/-- Model of CPython `float(s)` for `str` arguments: strips whitespace,
optional sign, `inf`/`infinity`/`nan` (case-insensitive) or a decimal
literal with optional fraction, exponent and interior underscores.
Returns `none` where `float` raises `ValueError`. -/
def pyFloatOfString (s : String) : Option PyFloat :=
  match pyStripList s.data with
  | '+' :: rest => pyFloatTail rest false
  | '-' :: rest => pyFloatTail rest true
  | rest => pyFloatTail rest false

/-- Python `x <= 0` on a float. -/
def pyFloatLe0 : PyFloat → Bool
  | .finite q => decide (q ≤ 0)
  | .nan => false
  | .inf => false
  | .ninf => true

/-- Python `x > 0` on a float. -/
def pyFloatGt0 : PyFloat → Bool
  | .finite q => decide (0 < q)
  | .nan => false
  | .inf => true
  | .ninf => false

/-- Python `x < y` on floats (false whenever `nan` is involved). -/
def pyFloatLt : PyFloat → PyFloat → Bool
  | .nan, _ => false
  | _, .nan => false
  | .finite a, .finite b => decide (a < b)
  | .finite _, .inf => true
  | .finite _, .ninf => false
  | .inf, _ => false
  | .ninf, .ninf => false
  | .ninf, _ => true

/-- Python `x <= y` on floats (false whenever `nan` is involved). -/
def pyFloatLe : PyFloat → PyFloat → Bool
  | .nan, _ => false
  | _, .nan => false
  | .finite a, .finite b => decide (a ≤ b)
  | .finite _, .inf => true
  | .finite _, .ninf => false
  | .inf, .inf => true
  | .inf, _ => false
  | .ninf, _ => true

/-- Value universe for the dict fields that flow through the pipeline. -/
inductive PyVal where
  | none
  | vstr (s : String)
  | vint (n : Int)
  | vnum (f : PyFloat)
deriving DecidableEq, Repr

/-- The exceptions the embedded code can raise. -/
inductive PyErr where
  | typeError (msg : String)
  | valueError (msg : String)
deriving DecidableEq, Repr

/-- Python `str(e)` for the message interpolated into `f"Extraction error: {e}"`. -/
def pyErrStr : PyErr → String
  | .typeError m => m
  | .valueError m => m

/-- Insertion-ordered dict as an association list (keys unique in all dicts
the pipeline builds). -/
abbrev Dict := List (String × PyVal)

/-- Python `d[k]` lookup (first occurrence). -/
def dictGet? : Dict → String → Option PyVal
  | [], _ => Option.none
  | (k', v) :: rest, k => if k' = k then some v else dictGet? rest k

/-- Python `d.get(k)` with default `None`. -/
def dGetN (d : Dict) (k : String) : PyVal := (dictGet? d k).getD PyVal.none

/-- Python `d[k] = v`: replace the first binding of `k`, else append. -/
def dictSet : Dict → String → PyVal → Dict
  | [], k, v => [(k, v)]
  | (k', v') :: rest, k, v =>
      if k' = k then (k, v) :: rest else (k', v') :: dictSet rest k v

/-- Python `d.update(other)`. -/
def dictUpdate (d other : Dict) : Dict :=
  other.foldl (fun acc kv => dictSet acc kv.1 kv.2) d

/-- Python truthiness of a field value. -/
def pyTruthy : PyVal → Bool
  | .none => false
  | .vstr s => !s.isEmpty
  | .vint n => n ≠ 0
  | .vnum f => f ≠ PyFloat.finite 0

/- Validator (src/validator.py).  `datetime.strptime` for the three formats
   "%d/%m/%Y", "%m/%d/%Y", "%Y-%m-%d" is modelled by CPython's _strptime
   regexes (%d = 3[01]|[12]\d|0[1-9]|[1-9], %m = 1[0-2]|0[1-9]|[1-9],
   %Y = four digits, whole string consumed) followed by the calendar
   validity check performed by the datetime constructor. -/

/-- Alternatives of the `%d` strptime component in CPython's priority order;
each alternative yields the day value and the remainder. -/
def dayAlts (cs : List Char) : List (Nat × List Char) :=
  (match cs with
   | '3' :: c :: rest =>
       if c = '0' then [(30, rest)] else if c = '1' then [(31, rest)] else []
   | _ => []) ++
  (match cs with
   | a :: b :: rest =>
       if (a = '1' || a = '2') && b.isDigit then [(digitVal a * 10 + digitVal b, rest)] else []
   | _ => []) ++
  (match cs with
   | '0' :: b :: rest => if b.isDigit && b ≠ '0' then [(digitVal b, rest)] else []
   | _ => []) ++
  (match cs with
   | a :: rest => if a.isDigit && a ≠ '0' then [(digitVal a, rest)] else []
   | _ => [])

/-- Alternatives of the `%m` strptime component in priority order. -/
def monthAlts (cs : List Char) : List (Nat × List Char) :=
  (match cs with
   | '1' :: c :: rest =>
       if c = '0' || c = '1' || c = '2' then [(10 + digitVal c, rest)] else []
   | _ => []) ++
  (match cs with
   | '0' :: b :: rest => if b.isDigit && b ≠ '0' then [(digitVal b, rest)] else []
   | _ => []) ++
  (match cs with
   | a :: rest => if a.isDigit && a ≠ '0' then [(digitVal a, rest)] else []
   | _ => [])

/-- The `%Y` strptime component: exactly four digits. -/
def year4 : List Char → Option (Nat × List Char)
  | a :: b :: c :: d :: rest =>
      if a.isDigit && b.isDigit && c.isDigit && d.isDigit then
        some (digitVal a * 1000 + digitVal b * 100 + digitVal c * 10 + digitVal d, rest)
      else none
  | _ => none

/-- Regex phase of strptime for "%d/%m/%Y" (backtracking over alternatives,
whole string must be consumed). -/
def strptimeRegexDMY (cs : List Char) : Option (Nat × Nat × Nat) :=
  (dayAlts cs).findSome? fun p =>
    match p.2 with
    | '/' :: r2 =>
        (monthAlts r2).findSome? fun q =>
          match q.2 with
          | '/' :: r4 =>
              match year4 r4 with
              | some (y, []) => some (y, q.1, p.1)
              | _ => none
          | _ => none
    | _ => none

/-- Regex phase of strptime for "%m/%d/%Y". -/
def strptimeRegexMDY (cs : List Char) : Option (Nat × Nat × Nat) :=
  (monthAlts cs).findSome? fun q =>
    match q.2 with
    | '/' :: r2 =>
        (dayAlts r2).findSome? fun p =>
          match p.2 with
          | '/' :: r4 =>
              match year4 r4 with
              | some (y, []) => some (y, q.1, p.1)
              | _ => none
          | _ => none
    | _ => none

/-- Regex phase of strptime for "%Y-%m-%d". -/
def strptimeRegexYMD (cs : List Char) : Option (Nat × Nat × Nat) :=
  match year4 cs with
  | some (y, '-' :: r2) =>
      (monthAlts r2).findSome? fun q =>
        match q.2 with
        | '-' :: r4 =>
            (dayAlts r4).findSome? fun p =>
              match p.2 with
              | [] => some (y, q.1, p.1)
              | _ => none
        | _ => none
  | _ => none

/-- Gregorian leap year, as used by `datetime`. -/
def isLeap (y : Nat) : Bool := y % 4 = 0 && (y % 100 ≠ 0 || y % 400 = 0)

/-- Days in a month, as used by `datetime`. -/
def daysInMonth (y m : Nat) : Nat :=
  if m = 2 then (if isLeap y then 29 else 28)
  else if m = 4 || m = 6 || m = 9 || m = 11 then 30
  else 31

/-- Validity check done by the `datetime` constructor (year 0 is rejected;
the regex already bounds month and day from above). -/
def validYMD (y m d : Nat) : Bool :=
  1 ≤ y && 1 ≤ m && m ≤ 12 && 1 ≤ d && d ≤ daysInMonth y m

/-- One `datetime.strptime(date_str, fmt)` call: regex match, then the
datetime constructor's calendar check (a regex success with an impossible
date raises ValueError for that format). -/
def strptimeFmt (regexPhase : List Char → Option (Nat × Nat × Nat)) (s : String) :
    Option (Nat × Nat × Nat) :=
  match regexPhase s.data with
  | some (y, m, d) => if validYMD y m d then some (y, m, d) else none
  | none => none

/-- `Validator.parse_date`: try the three formats in order, `None` if all fail. -/
def parse_date (s : String) : Option (Nat × Nat × Nat) :=
  match strptimeFmt strptimeRegexDMY s with
  | some r => some r
  | none =>
      match strptimeFmt strptimeRegexMDY s with
      | some r => some r
      | none => strptimeFmt strptimeRegexYMD s

/-- Error message for a missing invoice number. -/
def invMissingMsg : String := "Invoice number is missing."

/-- Error message for a missing date. -/
def dateMissingMsg : String := "Date is missing."

/-- Error message for a missing vendor. -/
def vendorMissingMsg : String := "Vendor name is missing."

/-- Error message for a missing total amount. -/
def amtMissingMsg : String := "Total amount is missing."

/-- Error message for an unrecognized date format. -/
def dateFmtMsg (s : String) : String :=
  "Date '" ++ s ++ "' is not in a recognized format."

/-- Error message for a too-short vendor name. -/
def vendorShortMsg (s : String) : String :=
  "Vendor name '" ++ s ++ "' is too short (min 3 characters)."

/-- Error message for a non-positive total amount. -/
def amtGtZeroMsg (s : String) : String :=
  "Total amount '" ++ s ++ "' must be greater than zero."

/-- Error message for an unparsable total amount. -/
def amtNotNumMsg (s : String) : String :=
  "Total amount '" ++ s ++ "' is not a valid number."

/-- The `re.sub(r'[$,]', '', ...)` cleaning shared by the validator and the
amount heuristic. -/
def cleanAmount (s : String) : String :=
  String.mk (s.data.filter (fun c => !(c = '$' || c = ',')))

/-- Invoice-number rule of `Validator.validate_invoice_data` (never throws:
only truthiness is inspected). -/
def invoiceNumErrors (d : Dict) : List String :=
  if pyTruthy (dGetN d "invoice_number") then [] else [invMissingMsg]

/-- Date rule: missing check, then `parse_date`; `strptime` raises TypeError
on a truthy non-str value. -/
def dateErrors (d : Dict) : Except PyErr (List String) :=
  if !pyTruthy (dGetN d "date") then .ok [dateMissingMsg]
  else
    match dGetN d "date" with
    | .vstr s => .ok (if (parse_date s).isSome then [] else [dateFmtMsg s])
    | _ => .error (.typeError "strptime() argument 1 must be str")

/-- Vendor rule: missing check, then `len(vendor_name) < 3`; `len` raises
TypeError on the truthy non-str values of our universe. -/
def vendorErrors (d : Dict) : Except PyErr (List String) :=
  if !pyTruthy (dGetN d "vendor") then .ok [vendorMissingMsg]
  else
    match dGetN d "vendor" with
    | .vstr s => .ok (if s.length < 3 then [vendorShortMsg s] else [])
    | _ => .error (.typeError "object has no len()")

/-- Total-amount rule: missing check, then strip `[$,]` and `float(...)`;
on parse success the field is re-assigned to the float (even when the value
is not greater than zero); `re.sub` raises TypeError on a truthy non-str
value.  Returns the appended errors and the (possibly mutated) dict. -/
def amountStep (d : Dict) : Except PyErr (List String × Dict) :=
  if !pyTruthy (dGetN d "total_amount") then .ok ([amtMissingMsg], d)
  else
    match dGetN d "total_amount" with
    | .vstr s =>
        match pyFloatOfString (cleanAmount s) with
        | some x =>
            .ok ((if pyFloatLe0 x then [amtGtZeroMsg s] else []),
                 dictSet d "total_amount" (.vnum x))
        | Option.none => .ok ([amtNotNumMsg s], d)
    | _ => .error (.typeError "expected string or bytes-like object")

/-- The four rule blocks of `validate_invoice_data` in source order; errors
accumulate, the amount block may mutate `total_amount`, and the first
raised exception propagates. -/
def validateFieldsErrors (d : Dict) : Except PyErr (List String × Dict) :=
  match dateErrors d with
  | .error e => .error e
  | .ok e2 =>
      match vendorErrors d with
      | .error e => .error e
      | .ok e3 =>
          match amountStep d with
          | .error e => .error e
          | .ok (e4, d2) => .ok (invoiceNumErrors d ++ e2 ++ e3 ++ e4, d2)

/-- `Validator.validate_invoice_data`: run the four rule blocks, then set
`status` and the semicolon-joined `errors` on the same dict. -/
def validate_invoice_data (d : Dict) : Except PyErr Dict :=
  match validateFieldsErrors d with
  | .error e => .error e
  | .ok (errs, d2) =>
      .ok (dictSet
            (dictSet d2 "status" (.vstr (if errs.isEmpty then "VALID" else "INVALID")))
            "errors" (.vstr (if errs.isEmpty then "" else joinSep "; " errs)))

/- Amount heuristic (Parser._intelligent_amount_extraction, src/parser.py).
   A matcher returns the priority-ordered list of (consumed, remainder)
   splits; sequencing via flatMap preserves Python's leftmost-greedy
   backtracking order, so the head of the list is the match `re` produces. -/

/-- Priority-ordered backtracking matcher. -/
abbrev Reg := List Char → List (List Char × List Char)

/-- Match a single character satisfying a class. -/
def rchar (p : Char → Bool) : Reg := fun cs =>
  match cs with
  | c :: rest => if p c then [([c], rest)] else []
  | [] => []

/-- Match the empty string. -/
def rempty : Reg := fun cs => [([], cs)]

/-- Sequencing; the result order is the lexicographic priority order. -/
def rseq (a b : Reg) : Reg := fun cs =>
  (a cs).flatMap (fun p => (b p.2).map (fun q => (p.1 ++ q.1, q.2)))

/-- Prioritized alternation (earlier alternative first). -/
def ralt (a b : Reg) : Reg := fun cs => a cs ++ b cs

/-- Exactly `n` repetitions. -/
def rexact (a : Reg) : Nat → Reg
  | 0 => rempty
  | n + 1 => rseq a (rexact a n)

/-- At most `n` repetitions, greedy (more repetitions first). -/
def rupto (a : Reg) : Nat → Reg
  | 0 => rempty
  | n + 1 => ralt (rseq a (rupto a n)) rempty

/-- Greedy counted repetition `a{lo,hi}`. -/
def rrep (a : Reg) (lo hi : Nat) : Reg := rseq (rexact a lo) (rupto a (hi - lo))

/-- Greedy `a*` for bodies that consume at least one character: the input
length bounds the number of repetitions. -/
def rstar (a : Reg) : Reg := fun cs => rupto a cs.length cs

/-- Greedy `a+`. -/
def rplus (a : Reg) : Reg := rseq a (rstar a)

/-- Optional `a?`, greedy. -/
def ropt (a : Reg) : Reg := ralt a rempty

/-- Match one literal character. -/
def rchr (c : Char) : Reg := rchar (fun x => x = c)

/-- The class `[0-9]` (also `\d`, modelled as ASCII). -/
def rdigit : Reg := rchar Char.isDigit

/-- The class `[\d,]`. -/
def rdigitOrComma : Reg := rchar (fun c => c.isDigit || c = ',')

/-- Body of `\$([\d,]+\.\d{1,2})` (the capture group). -/
def amtBody1 : Reg :=
  rseq (rplus rdigitOrComma) (rseq (rchr '.') (rrep rdigit 1 2))

/-- Body of the shared group `([0-9]{1,6}(?:,[0-9]{3})*(?:\.[0-9]{1,2})?)`
used by the `$`, `€`, `£` and `INR` patterns. -/
def amtBodyCommon : Reg :=
  rseq (rrep rdigit 1 6)
    (rseq (rstar (rseq (rchr ',') (rexact rdigit 3)))
      (ropt (rseq (rchr '.') (rrep rdigit 1 2))))

/-- Body of `(\d{1,6}(?:,[0-9]{3})*\.\d{2})` (bare decimal, group = whole). -/
def amtBody3 : Reg :=
  rseq (rrep rdigit 1 6)
    (rseq (rstar (rseq (rchr ',') (rexact rdigit 3)))
      (rseq (rchr '.') (rexact rdigit 2)))

/-- Prefix `INR\s*` with `re.IGNORECASE`. -/
def preINR : Reg :=
  rseq (rchar (fun c => c = 'I' || c = 'i'))
    (rseq (rchar (fun c => c = 'N' || c = 'n'))
      (rseq (rchar (fun c => c = 'R' || c = 'r')) (rstar (rchar isPyWs))))

/-- The six `amount_patterns` in source order, split as (uncaptured prefix,
capture-group body); group 1 of each pattern is exactly the body. -/
def amountPatterns : List (Reg × Reg) :=
  [(rchr '$', amtBody1),
   (rchr '$', amtBodyCommon),
   (rempty, amtBody3),
   (rchr '€', amtBodyCommon),
   (rchr '£', amtBodyCommon),
   (preINR, amtBodyCommon)]

/-- Try a pattern at the current position; on success return the content of
the capture group and the remainder after the whole match. -/
def patMatchAt (pre body : Reg) (cs : List Char) : Option (List Char × List Char) :=
  ((pre cs).flatMap (fun p => body p.2)).head?

/-- Scan for non-overlapping leftmost matches, as `re.findall` does; the
fuel is the input length plus one (every step consumes at least one
character of scanning position). -/
def findallFuel (pre body : Reg) : Nat → List Char → List (List Char)
  | 0, _ => []
  | _ + 1, [] => []
  | n + 1, c :: rest =>
      match patMatchAt pre body (c :: rest) with
      | some (g, r) =>
          if r.length < rest.length + 1 then g :: findallFuel pre body n r
          else g :: findallFuel pre body n rest
      | Option.none => findallFuel pre body n rest

/-- `re.findall(pattern, text)` returning the group-1 strings. -/
def findallS (pre body : Reg) (s : String) : List String :=
  (findallFuel pre body (s.data.length + 1) s.data).map String.mk

/-- All parsed candidates `(float_val, match.strip())` accumulated across
the six patterns, keeping only `float_val > 0`, exactly as the loop in
`_intelligent_amount_extraction` builds `all_amounts` (a candidate whose
cleaned text `float` cannot parse is skipped by the `except ValueError`). -/
def amountCandidates (text : String) : List (PyFloat × String) :=
  amountPatterns.flatMap (fun pr =>
    (findallS pr.1 pr.2 text).filterMap (fun m =>
      let ms := pyStrip m
      match pyFloatOfString (cleanAmount ms) with
      | some v => if pyFloatGt0 v then some (v, ms) else Option.none
      | Option.none => Option.none))

/-- Stable insertion step for descending order: walk past strictly larger
keys, insert before the first key that is not strictly larger. -/
def insertDesc (x : PyFloat × String) : List (PyFloat × String) → List (PyFloat × String)
  | [] => [x]
  | y :: ys => if pyFloatLt x.1 y.1 then y :: insertDesc x ys else x :: y :: ys

/-- Stable descending sort, modelling `all_amounts.sort(key=..., reverse=True)`. -/
def sortDesc : List (PyFloat × String) → List (PyFloat × String)
  | [] => []
  | x :: xs => insertDesc x (sortDesc xs)

/-- `Parser._intelligent_amount_extraction`: sort the candidates by value,
descending, and return the formatted string of the first; `None` when no
candidate survived. -/
def intelligent_amount_extraction (text : String) : Option String :=
  match sortDesc (amountCandidates text) with
  | [] => Option.none
  | p :: _ => some p.2

/- Extractor (src/extractor.py).  The PDF and OCR engines are abstract
   capability inputs: direct extraction provides the per-page
   `page.extract_text()` results, and OCR provides, per page, an
   attempt-indexed oracle giving either the `readtext` result texts or an
   engine exception.  The outer engine-open try blocks are modelled in the
   no-crash world (a corrupt PDF would surface as empty/partial text). -/

/-- Result dict of `Extractor.extract_text_from_pdf`. -/
structure ExtractionResult where
  text : String
  extraction_method : String
  text_length : Nat
  confidence_score : String
deriving DecidableEq, Repr

/-- The initial `extraction_result` dict before any `update`. -/
def initialExtractionResult : ExtractionResult :=
  { text := "", extraction_method := "UNKNOWN", text_length := 0, confidence_score := "N/A" }

/-- An OCR page: for each attempt index, the `reader.readtext` outcome
(list of recognized texts, or an engine exception). -/
abbrev OcrPage := Nat → Except Unit (List String)

/-- The per-page retry loop of `_extract_text_with_ocr`: up to the given
number of attempts; a nonempty `readtext` result re-assigns `page_text`,
and the loop breaks as soon as the assigned text has non-whitespace
content; exceptions are caught and retried.  Returns the final `page_text`
and the number of engine invocations. -/
def runPageOcr (oracle : OcrPage) : Nat → String → Nat → String × Nat
  | 0, acc, used => (acc, used)
  | n + 1, acc, used =>
      match oracle used with
      | .ok results =>
          if results.isEmpty then runPageOcr oracle n acc (used + 1)
          else
            let t := joinSep "\n" results
            if pyStrip t = "" then runPageOcr oracle n t (used + 1)
            else (t, used + 1)
      | .error _ => runPageOcr oracle n acc (used + 1)

/-- `Extractor._extract_text_with_ocr`: guard on `ocr_enabled`/reader, then
append each page's text plus a blank-line separator. -/
def extract_text_with_ocr (ocr_enabled : Bool) (retries : Nat) (pages : List OcrPage) : String :=
  if ocr_enabled then
    pages.foldl (fun acc o => acc ++ (runPageOcr o (retries + 1) "" 0).1 ++ "\n\n") ""
  else ""

/-- `Extractor._extract_text_with_pdfplumber`: concatenate per-page direct
text, treating a `None` page result as the empty string. -/
def extract_text_with_pdfplumber (pages : List (Option String)) : String :=
  pages.foldl (fun acc p => acc ++ p.getD "") ""

/-- `Extractor.extract_text_from_pdf`: direct extraction, the 50-word
threshold, the OCR fallback guarded by `ocr_text.strip()`, and the
`DIRECT_FAILED` degradation (which keeps the initial confidence tag). -/
def extract_text_from_pdf (ocr_enabled : Bool) (retries : Nat)
    (directPages : List (Option String)) (ocrPages : List OcrPage) : ExtractionResult :=
  let direct_text := extract_text_with_pdfplumber directPages
  let word_count := wordCount direct_text
  if 50 ≤ word_count then
    { initialExtractionResult with
        text := direct_text, extraction_method := "DIRECT",
        text_length := direct_text.length, confidence_score := "HIGH_DIRECT" }
  else if ocr_enabled then
    let ocr_text := extract_text_with_ocr ocr_enabled retries ocrPages
    if pyStrip ocr_text = "" then
      { initialExtractionResult with
          text := direct_text, extraction_method := "DIRECT_FAILED",
          text_length := direct_text.length }
    else
      { initialExtractionResult with
          text := ocr_text, extraction_method := "OCR",
          text_length := ocr_text.length, confidence_score := "OCR_COMPLETED" }
  else
    { initialExtractionResult with
        text := direct_text, extraction_method := "DIRECT_FAILED",
        text_length := direct_text.length }

/- Orchestrator (src/main.py).  `process_single_invoice` is modelled with
   its collaborators as inputs: the extraction outcome (the extractor call
   sits inside the per-file try), the parser, the validator and the
   summary formatter; the claims under inspection constrain only the
   orchestration logic, and the concrete embedded validator is plugged in
   where needed.  Note: `run_bot_logic` as written references the
   undefined name `cpu_count` (main.py:142); the futures collection loop
   (main.py:147-155) is modelled over the completion-ordered list of
   per-file outcomes. -/

/-- The message stored when extraction returns no meaningful text. -/
def noTextMsg : String := "No text extracted from PDF."

/-- `process_single_invoice` (main.py:67-117): build `processed_data`,
merge extraction metadata, short-circuit blank text, otherwise parse,
merge, validate and attach the summary.  Exceptions in extraction are
caught and produce an INVALID record; exceptions in parsing or validation
propagate. -/
def process_single_invoice (filename : String)
    (extraction : Except PyErr ExtractionResult)
    (parse : String → Except PyErr Dict)
    (validate : Dict → Except PyErr Dict)
    (summarize : Dict → Dict → String) : Except PyErr Dict :=
  let processed_data : Dict :=
    [("filename", .vstr filename), ("extraction_method", .vstr "UNKNOWN"),
     ("text_length", .vint 0), ("confidence_score", .vstr "N/A")]
  match extraction with
  | .error e =>
      .ok (dictUpdate processed_data
        [("invoice_number", .none), ("date", .none), ("vendor", .none), ("total_amount", .none),
         ("status", .vstr "INVALID"),
         ("errors", .vstr ("Extraction error: " ++ pyErrStr e)),
         ("validation_details", .vstr "Extraction failed")])
  | .ok er =>
      let extracted_text := er.text
      let processed_data := dictUpdate processed_data
        [("extraction_method", .vstr er.extraction_method),
         ("text_length", .vint (er.text_length : Int)),
         ("confidence_score", .vstr er.confidence_score)]
      if pyStrip extracted_text = "" then
        .ok (dictUpdate processed_data
          [("invoice_number", .none), ("date", .none), ("vendor", .none), ("total_amount", .none),
           ("status", .vstr "INVALID"), ("errors", .vstr noTextMsg),
           ("validation_details", .vstr "No text to parse")])
      else
        match parse extracted_text with
        | .error e => .error e
        | .ok parsed =>
            let merged := dictUpdate parsed processed_data
            match validate merged with
            | .error e => .error e
            | .ok validated =>
                .ok (dictSet validated "validation_details" (.vstr (summarize validated validated)))

/-- The futures collection loop of `run_bot_logic` (main.py:147-155) over
the completion-ordered per-file outcomes: a successful result is appended,
an exception is logged and the file dropped. -/
def collectResults (outcomes : List (Except PyErr Dict)) : List Dict :=
  outcomes.filterMap (fun o =>
    match o with
    | .ok d => some d
    | .error _ => Option.none)

/-- Whether a per-file outcome completed without an exception. -/
def isOkOutcome (o : Except PyErr Dict) : Bool :=
  match o with
  | .ok _ => true
  | .error _ => false

/- Derived definitions used by the specification statements. -/

/-- Whether the list starts with the given needle. -/
def startsWithL : List Char → List Char → Bool
  | _, [] => true
  | [], _ :: _ => false
  | a :: as, b :: bs => a = b && startsWithL as bs

/-- Substring test on char lists. -/
def containsL : List Char → List Char → Bool
  | [], needle => needle.isEmpty
  | a :: rest, needle => startsWithL (a :: rest) needle || containsL rest needle

/-- Python `needle in hay` on strings. -/
def strContains (hay needle : String) : Bool := containsL hay.data needle.data

/-- Whether an OCR attempt is accepted by the per-page loop: `readtext`
succeeded with a nonempty result list whose joined text has non-whitespace
content. -/
def attemptNonBlank (oracle : OcrPage) (i : Nat) : Bool :=
  match oracle i with
  | .ok rs => !rs.isEmpty && hasNonWs (joinSep "\n" rs)
  | .error _ => false

/-- The joined text an OCR attempt would assign to `page_text`. -/
def attemptText (oracle : OcrPage) (i : Nat) : String :=
  match oracle i with
  | .ok rs => joinSep "\n" rs
  | .error _ => ""

/-- The final page text produced by the per-page OCR loop. -/
def pageOcrText (o : OcrPage) (retries : Nat) : String := (runPageOcr o (retries + 1) "" 0).1

/-- The number of OCR engine invocations the per-page loop performs. -/
def pageOcrCalls (o : OcrPage) (retries : Nat) : Nat := (runPageOcr o (retries + 1) "" 0).2

/-- The record `process_single_invoice` returns when the extraction stage
raises (main.py:104-111). -/
def extractionErrorRecord (fn : String) (e : PyErr) : Dict :=
  [("filename", .vstr fn), ("extraction_method", .vstr "UNKNOWN"),
   ("text_length", .vint 0), ("confidence_score", .vstr "N/A"),
   ("invoice_number", .none), ("date", .none), ("vendor", .none), ("total_amount", .none),
   ("status", .vstr "INVALID"),
   ("errors", .vstr ("Extraction error: " ++ pyErrStr e)),
   ("validation_details", .vstr "Extraction failed")]

/-- The record `process_single_invoice` returns when extraction yields only
blank text (main.py:96-103): parsing and validation are skipped. -/
def noTextRecord (fn : String) (er : ExtractionResult) : Dict :=
  [("filename", .vstr fn), ("extraction_method", .vstr er.extraction_method),
   ("text_length", .vint (er.text_length : Int)), ("confidence_score", .vstr er.confidence_score),
   ("invoice_number", .none), ("date", .none), ("vendor", .none), ("total_amount", .none),
   ("status", .vstr "INVALID"), ("errors", .vstr noTextMsg),
   ("validation_details", .vstr "No text to parse")]

/-- A trivial parser collaborator (all four fields absent), used to
instantiate the orchestrator at concrete inputs. -/
def trivParse : String → Except PyErr Dict := fun _ =>
  .ok [("invoice_number", .none), ("date", .none), ("vendor", .none), ("total_amount", .none)]

/-- A trivial summary collaborator. -/
def trivSummary : Dict → Dict → String := fun _ _ => ""

/-- All candidate keys are positive floats. -/
def allGt0 (l : List (PyFloat × String)) : Prop := ∀ p ∈ l, pyFloatGt0 p.1 = true

/-- Inputs on which the three type-sensitive validator rules see a string
whenever the field is truthy (the shape every pipeline-produced dict has). -/
def validatorSafeInput (d : Dict) : Prop :=
  (pyTruthy (dGetN d "date") = true → ∃ s, dGetN d "date" = .vstr s) ∧
  (pyTruthy (dGetN d "vendor") = true → ∃ s, dGetN d "vendor" = .vstr s) ∧
  (pyTruthy (dGetN d "total_amount") = true → ∃ s, dGetN d "total_amount" = .vstr s)

/-- A 50-word text, witnessing the direct-acceptance threshold. -/
def fiftyWords : String := joinSep " " (List.replicate 50 "w")

/- Helper lemmas about the embedded primitives. -/

/-- Setting a key makes it readable. -/
theorem dictGet?_set_self (d : Dict) (k : String) (v : PyVal) :
    dictGet? (dictSet d k v) k = some v := by
  induction d with
  | nil => simp [dictSet, dictGet?]
  | cons p rest ih =>
      obtain ⟨pk, pv⟩ := p
      by_cases h : pk = k
      · simp [dictSet, h, dictGet?]
      · simp [dictSet, h, dictGet?, ih]

/-- Setting one key leaves every other key unchanged. -/
theorem dictGet?_set_ne (d : Dict) (k k' : String) (v : PyVal) (h : k' ≠ k) :
    dictGet? (dictSet d k v) k' = dictGet? d k' := by
  have hkk : ¬ k = k' := fun he => h he.symm
  induction d with
  | nil => simp [dictSet, dictGet?, hkk]
  | cons p rest ih =>
      obtain ⟨pk, pv⟩ := p
      by_cases hp : pk = k
      · subst hp
        simp [dictSet, dictGet?, hkk]
      · simp [dictSet, hp, dictGet?, ih]

/-- String append acts as list append on the underlying data. -/
theorem strData_append (a b : String) : (a ++ b).data = a.data ++ b.data := by
  cases a
  cases b
  rfl

/-- Two strings differing at some position differ. -/
theorem strNe_of_getElem (a b : String) (i : Nat) (h : a.data[i]? ≠ b.data[i]?) : a ≠ b := by
  intro he
  exact h (by rw [he])

/-- The strip of a string is empty exactly when it has no non-whitespace
character. -/
theorem pyStrip_eq_empty_iff (s : String) : pyStrip s = "" ↔ hasNonWs s = false := by
  have hrev : ∀ l : List Char, (List.dropWhile isPyWs l = []) ↔ ∀ c ∈ l, isPyWs c :=
    fun l => List.dropWhile_eq_nil_iff
  constructor
  · intro h
    have hdata : pyStripList s.data = [] := congrArg String.data h
    unfold pyStripList at hdata
    rw [List.reverse_eq_nil_iff, hrev] at hdata
    simp only [List.mem_reverse] at hdata
    have hall : ∀ c ∈ s.data, isPyWs c := by
      intro c hc
      rcases (List.mem_append.mp (by
        rw [List.takeWhile_append_dropWhile isPyWs s.data]
        exact hc : c ∈ s.data.takeWhile isPyWs ++ s.data.dropWhile isPyWs)) with h1 | h1
      · exact List.mem_takeWhile_imp h1
      · exact hdata c h1
    unfold hasNonWs
    simp only [List.any_eq_false]
    intro c hc
    simp [hall c hc]
  · intro h
    have hall : ∀ c ∈ s.data, isPyWs c := by
      unfold hasNonWs at h
      simp only [List.any_eq_false] at h
      intro c hc
      have := h c hc
      simpa using this
    have h1 : List.dropWhile isPyWs s.data = [] := (hrev _).mpr hall
    show String.mk (pyStripList s.data) = String.mk []
    unfold pyStripList
    rw [h1]
    simp

/-- Non-whitespace content distributes over append. -/
theorem hasNonWs_append (a b : String) :
    hasNonWs (a ++ b) = (hasNonWs a || hasNonWs b) := by
  unfold hasNonWs
  rw [strData_append, List.any_append]

/-- Position `i` of a prefixed message is still inside the prefix. -/
theorem msgGet_low (p s t : String) (i : Nat) (h : i < p.data.length) :
    (p ++ s ++ t).data[i]? = p.data[i]? := by
  have h2 : i < (p.data ++ s.data).length := by
    simp only [List.length_append]
    omega
  rw [strData_append, strData_append, List.getElem?_append_left h2,
    List.getElem?_append_left h]

/-- First character of a date-format error. -/
theorem dateFmtMsg_head (s : String) : (dateFmtMsg s).data[0]? = some 'D' := by
  unfold dateFmtMsg
  rw [msgGet_low "Date '" s "' is not in a recognized format." 0 (by decide)]
  decide

/-- Sixth character of a date-format error (distinguishes it from the
missing-date message). -/
theorem dateFmtMsg_five (s : String) : (dateFmtMsg s).data[5]? = some '\'' := by
  unfold dateFmtMsg
  rw [msgGet_low "Date '" s "' is not in a recognized format." 5 (by decide)]
  decide

/-- First character of a short-vendor error. -/
theorem vendorShortMsg_head (s : String) : (vendorShortMsg s).data[0]? = some 'V' := by
  unfold vendorShortMsg
  rw [msgGet_low "Vendor name '" s "' is too short (min 3 characters)." 0 (by decide)]
  decide

/-- Thirteenth character of a short-vendor error. -/
theorem vendorShortMsg_twelve (s : String) : (vendorShortMsg s).data[12]? = some '\'' := by
  unfold vendorShortMsg
  rw [msgGet_low "Vendor name '" s "' is too short (min 3 characters)." 12 (by decide)]
  decide

/-- First character of a non-positive-amount error. -/
theorem amtGtZeroMsg_head (s : String) : (amtGtZeroMsg s).data[0]? = some 'T' := by
  unfold amtGtZeroMsg
  rw [msgGet_low "Total amount '" s "' must be greater than zero." 0 (by decide)]
  decide

/-- Fourteenth character of a non-positive-amount error. -/
theorem amtGtZeroMsg_thirteen (s : String) : (amtGtZeroMsg s).data[13]? = some '\'' := by
  unfold amtGtZeroMsg
  rw [msgGet_low "Total amount '" s "' must be greater than zero." 13 (by decide)]
  decide

/-- First character of an unparsable-amount error. -/
theorem amtNotNumMsg_head (s : String) : (amtNotNumMsg s).data[0]? = some 'T' := by
  unfold amtNotNumMsg
  rw [msgGet_low "Total amount '" s "' is not a valid number." 0 (by decide)]
  decide

/-- Fourteenth character of an unparsable-amount error. -/
theorem amtNotNumMsg_thirteen (s : String) : (amtNotNumMsg s).data[13]? = some '\'' := by
  unfold amtNotNumMsg
  rw [msgGet_low "Total amount '" s "' is not a valid number." 13 (by decide)]
  decide

/-- A strictly positive float is not `<= 0`. -/
theorem pyFloatGt0_not_le0 (x : PyFloat) (h : pyFloatGt0 x = true) : pyFloatLe0 x = false := by
  cases x with
  | finite q =>
      simp only [pyFloatGt0, decide_eq_true_eq] at h
      simp only [pyFloatLe0, decide_eq_false_iff_not]
      linarith
  | nan => rfl
  | inf => rfl
  | ninf => simp [pyFloatGt0] at h

/-- Reflexivity of the float order away from `nan`. -/
theorem pyFloatLe_refl_gt0 (x : PyFloat) (h : pyFloatGt0 x = true) : pyFloatLe x x = true := by
  cases x with
  | finite q => simp [pyFloatLe]
  | nan => simp [pyFloatGt0] at h
  | inf => rfl
  | ninf => simp [pyFloatGt0] at h

/-- Strict order implies order on positive floats. -/
theorem pyFloatLt_le (x y : PyFloat) (hx : pyFloatGt0 x = true) (hy : pyFloatGt0 y = true)
    (h : pyFloatLt x y = true) : pyFloatLe x y = true := by
  cases x <;> cases y <;>
    simp_all [pyFloatLt, pyFloatLe, pyFloatGt0] <;> linarith

/-- Totality of the order on positive floats. -/
theorem pyFloatNotLt_le (x y : PyFloat) (hx : pyFloatGt0 x = true) (hy : pyFloatGt0 y = true)
    (h : pyFloatLt x y = false) : pyFloatLe y x = true := by
  cases x <;> cases y <;>
    simp_all [pyFloatLt, pyFloatLe, pyFloatGt0] <;> linarith

/-- Transitivity of the order on positive floats. -/
theorem pyFloatLe_trans_gt0 (x y z : PyFloat) (hx : pyFloatGt0 x = true)
    (hy : pyFloatGt0 y = true) (hz : pyFloatGt0 z = true)
    (h1 : pyFloatLe x y = true) (h2 : pyFloatLe y z = true) : pyFloatLe x z = true := by
  cases x <;> cases y <;> cases z <;>
    simp_all [pyFloatLe, pyFloatGt0] <;> linarith

/-- Membership through the stable descending insertion. -/
theorem mem_insertDesc (x y : PyFloat × String) (l : List (PyFloat × String)) :
    y ∈ insertDesc x l ↔ y = x ∨ y ∈ l := by
  induction l with
  | nil => simp [insertDesc]
  | cons z zs ih =>
      cases h : pyFloatLt x.1 z.1 with
      | true =>
          simp [insertDesc, h, List.mem_cons, ih]
          tauto
      | false =>
          simp [insertDesc, h, List.mem_cons]

/-- Membership is preserved by the descending sort. -/
theorem mem_sortDesc (y : PyFloat × String) (l : List (PyFloat × String)) :
    y ∈ sortDesc l ↔ y ∈ l := by
  induction l with
  | nil => simp [sortDesc]
  | cons x xs ih => simp [sortDesc, mem_insertDesc, ih]

/-- On positive keys, the head of the descending sort exists, belongs to
the list and dominates every key. -/
theorem sortDesc_headMax : ∀ (l : List (PyFloat × String)), allGt0 l → l ≠ [] →
    ∃ v s rest, sortDesc l = (v, s) :: rest ∧ (v, s) ∈ l ∧
      ∀ p ∈ l, pyFloatLe p.1 v = true
  | [], _, hne => absurd rfl hne
  | x :: xs, hall, _ => by
      have hxgt : pyFloatGt0 x.1 = true := hall x (List.mem_cons_self x xs)
      have hallxs : allGt0 xs := fun p hp => hall p (List.mem_cons_of_mem _ hp)
      by_cases hxs : xs = []
      · subst hxs
        refine ⟨x.1, x.2, [], rfl, List.mem_cons_self x [], ?_⟩
        intro p hp
        simp only [List.mem_singleton] at hp
        subst hp
        exact pyFloatLe_refl_gt0 _ hxgt
      · obtain ⟨v, s, r, hsort, hmem, hmax⟩ := sortDesc_headMax xs hallxs hxs
        have hvgt : pyFloatGt0 v = true := hallxs (v, s) hmem
        cases hlt : pyFloatLt x.1 v with
        | true =>
            refine ⟨v, s, insertDesc x r, ?_, List.mem_cons_of_mem _ hmem, ?_⟩
            · show insertDesc x (sortDesc xs) = (v, s) :: insertDesc x r
              rw [hsort]
              simp [insertDesc, hlt]
            · intro p hp
              rcases List.mem_cons.mp hp with hp | hp
              · subst hp
                exact pyFloatLt_le _ _ hxgt hvgt hlt
              · exact hmax p hp
        | false =>
            refine ⟨x.1, x.2, (v, s) :: r, ?_, List.mem_cons_self x xs, ?_⟩
            · show insertDesc x (sortDesc xs) = (x.1, x.2) :: (v, s) :: r
              rw [hsort]
              simp [insertDesc, hlt]
            · intro p hp
              rcases List.mem_cons.mp hp with hp | hp
              · subst hp
                exact pyFloatLe_refl_gt0 _ hxgt
              · exact pyFloatLe_trans_gt0 p.1 v x.1 (hallxs p hp) hvgt hxgt
                  (hmax p hp) (pyFloatNotLt_le x.1 v hxgt hvgt hlt)

/-- Every element of the candidate list parses (after cleaning) to its key,
which is strictly positive. -/
theorem amountCandidates_spec (text : String) (p : PyFloat × String)
    (h : p ∈ amountCandidates text) :
    pyFloatOfString (cleanAmount p.2) = some p.1 ∧ pyFloatGt0 p.1 = true := by
  unfold amountCandidates at h
  rw [List.mem_flatMap] at h
  obtain ⟨pr, _, hmem⟩ := h
  rw [List.mem_filterMap] at hmem
  obtain ⟨m, _, hf⟩ := hmem
  have hf' : (match pyFloatOfString (cleanAmount (pyStrip m)) with
      | some v => if pyFloatGt0 v then some (v, pyStrip m) else Option.none
      | Option.none => Option.none) = some p := hf
  cases hparse : pyFloatOfString (cleanAmount (pyStrip m)) with
  | none =>
      rw [hparse] at hf'
      simp at hf'
  | some v =>
      rw [hparse] at hf'
      have hf2 : (if pyFloatGt0 v then some (v, pyStrip m) else Option.none) = some p := hf'
      cases hgt : pyFloatGt0 v with
      | false =>
          rw [hgt] at hf2
          simp at hf2
      | true =>
          rw [hgt] at hf2
          simp only [if_true] at hf2
          have hp : p = (v, pyStrip m) := (Option.some.injEq _ _).mp hf2.symm
          subst hp
          exact ⟨hparse, hgt⟩

/-- Every candidate key is positive. -/
theorem amountCandidates_gt0 (text : String) : allGt0 (amountCandidates text) :=
  fun p hp => (amountCandidates_spec text p hp).2

/-- The invoice-number block characterized. -/
theorem invoiceNumErrors_char (d : Dict) (m : String) :
    m ∈ invoiceNumErrors d ↔
      (m = invMissingMsg ∧ pyTruthy (dGetN d "invoice_number") = false) := by
  unfold invoiceNumErrors
  cases hb : pyTruthy (dGetN d "invoice_number") with
  | true => simp
  | false => simp

/-- Every error the date block emits starts with `D`. -/
theorem dateErrors_headD (d : Dict) (e2 : List String) (h2 : dateErrors d = .ok e2) :
    ∀ m ∈ e2, m.data[0]? = some 'D' := by
  unfold dateErrors at h2
  cases hb : pyTruthy (dGetN d "date") with
  | false =>
      rw [hb] at h2
      simp only [Bool.not_false, if_true, Except.ok.injEq] at h2
      subst h2
      intro m hm
      simp only [List.mem_singleton] at hm
      subst hm
      decide
  | true =>
      rw [hb] at h2
      simp only [Bool.not_true, Bool.false_eq_true, if_false] at h2
      cases hv : dGetN d "date" with
      | vstr s =>
          rw [hv] at h2
          simp only [Except.ok.injEq] at h2
          subst h2
          intro m hm
          cases hps : (parse_date s).isSome with
          | true =>
              rw [hps] at hm
              simp at hm
          | false =>
              rw [hps] at hm
              simp only [Bool.false_eq_true, if_false, List.mem_singleton] at hm
              subst hm
              exact dateFmtMsg_head s
      | none => rw [hv] at h2; cases h2
      | vint n => rw [hv] at h2; cases h2
      | vnum f => rw [hv] at h2; cases h2

/-- Membership of the missing-date message in the date block. -/
theorem dateErrors_missing_char (d : Dict) (e2 : List String) (h2 : dateErrors d = .ok e2) :
    (dateMissingMsg ∈ e2 ↔ pyTruthy (dGetN d "date") = false) := by
  unfold dateErrors at h2
  cases hb : pyTruthy (dGetN d "date") with
  | false =>
      rw [hb] at h2
      simp only [Bool.not_false, if_true, Except.ok.injEq] at h2
      subst h2
      simp
  | true =>
      rw [hb] at h2
      simp only [Bool.not_true, Bool.false_eq_true, if_false] at h2
      constructor
      · intro hm
        exfalso
        cases hv : dGetN d "date" with
        | vstr s =>
            rw [hv] at h2
            simp only [Except.ok.injEq] at h2
            subst h2
            cases hps : (parse_date s).isSome with
            | true => rw [hps] at hm; simp at hm
            | false =>
                rw [hps] at hm
                simp only [Bool.false_eq_true, if_false, List.mem_singleton] at hm
                have h5 : dateMissingMsg.data[5]? = (dateFmtMsg s).data[5]? := by rw [hm]
                rw [dateFmtMsg_five] at h5
                exact absurd h5 (by decide)
        | none => rw [hv] at h2; cases h2
        | vint n => rw [hv] at h2; cases h2
        | vnum f => rw [hv] at h2; cases h2
      · intro hf
        exact absurd hf (by decide)

/-- Every error the vendor block emits starts with `V`. -/
theorem vendorErrors_headV (d : Dict) (e3 : List String) (h3 : vendorErrors d = .ok e3) :
    ∀ m ∈ e3, m.data[0]? = some 'V' := by
  unfold vendorErrors at h3
  cases hb : pyTruthy (dGetN d "vendor") with
  | false =>
      rw [hb] at h3
      simp only [Bool.not_false, if_true, Except.ok.injEq] at h3
      subst h3
      intro m hm
      simp only [List.mem_singleton] at hm
      subst hm
      decide
  | true =>
      rw [hb] at h3
      simp only [Bool.not_true, Bool.false_eq_true, if_false] at h3
      cases hv : dGetN d "vendor" with
      | vstr s =>
          rw [hv] at h3
          simp only [Except.ok.injEq] at h3
          subst h3
          intro m hm
          cases hlen : decide (s.length < 3) with
          | true =>
              rw [if_pos (of_decide_eq_true hlen)] at hm
              simp only [List.mem_singleton] at hm
              subst hm
              exact vendorShortMsg_head s
          | false =>
              rw [if_neg (of_decide_eq_false hlen)] at hm
              simp at hm
      | none => rw [hv] at h3; cases h3
      | vint n => rw [hv] at h3; cases h3
      | vnum f => rw [hv] at h3; cases h3

/-- Membership of the missing-vendor message in the vendor block. -/
theorem vendorErrors_missing_char (d : Dict) (e3 : List String) (h3 : vendorErrors d = .ok e3) :
    (vendorMissingMsg ∈ e3 ↔ pyTruthy (dGetN d "vendor") = false) := by
  unfold vendorErrors at h3
  cases hb : pyTruthy (dGetN d "vendor") with
  | false =>
      rw [hb] at h3
      simp only [Bool.not_false, if_true, Except.ok.injEq] at h3
      subst h3
      simp
  | true =>
      rw [hb] at h3
      simp only [Bool.not_true, Bool.false_eq_true, if_false] at h3
      constructor
      · intro hm
        exfalso
        cases hv : dGetN d "vendor" with
        | vstr s =>
            rw [hv] at h3
            simp only [Except.ok.injEq] at h3
            subst h3
            cases hlen : decide (s.length < 3) with
            | true =>
                rw [if_pos (of_decide_eq_true hlen)] at hm
                simp only [List.mem_singleton] at hm
                have h12 : vendorMissingMsg.data[12]? = (vendorShortMsg s).data[12]? := by rw [hm]
                rw [vendorShortMsg_twelve] at h12
                exact absurd h12 (by decide)
            | false =>
                rw [if_neg (of_decide_eq_false hlen)] at hm
                simp at hm
        | none => rw [hv] at h3; cases h3
        | vint n => rw [hv] at h3; cases h3
        | vnum f => rw [hv] at h3; cases h3
      · intro hf
        exact absurd hf (by decide)

/-- Every error the amount block emits starts with `T`. -/
theorem amountStep_headT (d : Dict) (e4 : List String) (d2 : Dict)
    (h4 : amountStep d = .ok (e4, d2)) : ∀ m ∈ e4, m.data[0]? = some 'T' := by
  unfold amountStep at h4
  cases hb : pyTruthy (dGetN d "total_amount") with
  | false =>
      rw [hb] at h4
      simp only [Bool.not_false, if_true, Except.ok.injEq, Prod.mk.injEq] at h4
      obtain ⟨h4, -⟩ := h4
      subst h4
      intro m hm
      simp only [List.mem_singleton] at hm
      subst hm
      decide
  | true =>
      rw [hb] at h4
      simp only [Bool.not_true, Bool.false_eq_true, if_false] at h4
      cases hv : dGetN d "total_amount" with
      | vstr s =>
          rw [hv] at h4
          have h4' : (match pyFloatOfString (cleanAmount s) with
              | some x => Except.ok ((if pyFloatLe0 x then [amtGtZeroMsg s] else []),
                  dictSet d "total_amount" (PyVal.vnum x))
              | Option.none => Except.ok ([amtNotNumMsg s], d)) = Except.ok (e4, d2) := h4
          cases hp : pyFloatOfString (cleanAmount s) with
          | none =>
              rw [hp] at h4'
              simp only [Except.ok.injEq, Prod.mk.injEq] at h4'
              obtain ⟨h4', -⟩ := h4'
              subst h4'
              intro m hm
              simp only [List.mem_singleton] at hm
              subst hm
              exact amtNotNumMsg_head s
          | some x =>
              rw [hp] at h4'
              simp only [Except.ok.injEq, Prod.mk.injEq] at h4'
              obtain ⟨h4', -⟩ := h4'
              subst h4'
              intro m hm
              cases hle : pyFloatLe0 x with
              | true =>
                  rw [hle] at hm
                  simp only [if_true, List.mem_singleton] at hm
                  subst hm
                  exact amtGtZeroMsg_head s
              | false =>
                  rw [hle] at hm
                  simp at hm
      | none => rw [hv] at h4; cases h4
      | vint n => rw [hv] at h4; cases h4
      | vnum f => rw [hv] at h4; cases h4

/-- Membership of the missing-amount message in the amount block. -/
theorem amountStep_missing_char (d : Dict) (e4 : List String) (d2 : Dict)
    (h4 : amountStep d = .ok (e4, d2)) :
    (amtMissingMsg ∈ e4 ↔ pyTruthy (dGetN d "total_amount") = false) := by
  unfold amountStep at h4
  cases hb : pyTruthy (dGetN d "total_amount") with
  | false =>
      rw [hb] at h4
      simp only [Bool.not_false, if_true, Except.ok.injEq, Prod.mk.injEq] at h4
      obtain ⟨h4, -⟩ := h4
      subst h4
      simp
  | true =>
      rw [hb] at h4
      simp only [Bool.not_true, Bool.false_eq_true, if_false] at h4
      constructor
      · intro hm
        exfalso
        cases hv : dGetN d "total_amount" with
        | vstr s =>
            rw [hv] at h4
            have h4' : (match pyFloatOfString (cleanAmount s) with
                | some x => Except.ok ((if pyFloatLe0 x then [amtGtZeroMsg s] else []),
                    dictSet d "total_amount" (PyVal.vnum x))
                | Option.none => Except.ok ([amtNotNumMsg s], d)) = Except.ok (e4, d2) := h4
            cases hp : pyFloatOfString (cleanAmount s) with
            | none =>
                rw [hp] at h4'
                simp only [Except.ok.injEq, Prod.mk.injEq] at h4'
                obtain ⟨h4', -⟩ := h4'
                subst h4'
                simp only [List.mem_singleton] at hm
                have h13 : amtMissingMsg.data[13]? = (amtNotNumMsg s).data[13]? := by rw [hm]
                rw [amtNotNumMsg_thirteen] at h13
                exact absurd h13 (by decide)
            | some x =>
                rw [hp] at h4'
                simp only [Except.ok.injEq, Prod.mk.injEq] at h4'
                obtain ⟨h4', -⟩ := h4'
                subst h4'
                cases hle : pyFloatLe0 x with
                | true =>
                    rw [hle] at hm
                    simp only [if_true, List.mem_singleton] at hm
                    have h13 : amtMissingMsg.data[13]? = (amtGtZeroMsg s).data[13]? := by rw [hm]
                    rw [amtGtZeroMsg_thirteen] at h13
                    exact absurd h13 (by decide)
                | false =>
                    rw [hle] at hm
                    simp at hm
        | none => rw [hv] at h4; cases h4
        | vint n => rw [hv] at h4; cases h4
        | vnum f => rw [hv] at h4; cases h4
      · intro hf
        exact absurd hf (by decide)

/-- The amount block on a truthy string amount whose cleaned text parses:
errors are exactly the non-positivity check, and the field is re-assigned
to the parsed float, whether or not the value is positive. -/
theorem amountStep_vstr_some (d : Dict) (s : String) (x : PyFloat)
    (hget : dGetN d "total_amount" = .vstr s) (hs : s ≠ "")
    (hp : pyFloatOfString (cleanAmount s) = some x) :
    amountStep d = .ok ((if pyFloatLe0 x then [amtGtZeroMsg s] else []),
      dictSet d "total_amount" (.vnum x)) := by
  unfold amountStep
  rw [hget]
  have ht : pyTruthy (PyVal.vstr s) = true := by
    simp only [pyTruthy, Bool.not_eq_true]
    cases hh : s.isEmpty
    · rfl
    · exact absurd ((String.isEmpty_iff s).mp hh) hs
  rw [ht]
  simp only [Bool.not_true, Bool.false_eq_true, if_false]
  rw [hp]

/-- The amount block on a truthy string amount whose cleaned text does not
parse: the unparsable error is emitted and the dict is untouched. -/
theorem amountStep_vstr_none (d : Dict) (s : String)
    (hget : dGetN d "total_amount" = .vstr s) (hs : s ≠ "")
    (hp : pyFloatOfString (cleanAmount s) = Option.none) :
    amountStep d = .ok ([amtNotNumMsg s], d) := by
  unfold amountStep
  rw [hget]
  have ht : pyTruthy (PyVal.vstr s) = true := by
    simp only [pyTruthy, Bool.not_eq_true]
    cases hh : s.isEmpty
    · rfl
    · exact absurd ((String.isEmpty_iff s).mp hh) hs
  rw [ht]
  simp only [Bool.not_true, Bool.false_eq_true, if_false]
  rw [hp]

/-- Decomposition of a successful validation run into its four blocks. -/
theorem validateFieldsErrors_ok (d : Dict) (errs : List String) (d2 : Dict)
    (h : validateFieldsErrors d = .ok (errs, d2)) :
    ∃ e2 e3 e4, dateErrors d = .ok e2 ∧ vendorErrors d = .ok e3 ∧
      amountStep d = .ok (e4, d2) ∧ errs = invoiceNumErrors d ++ e2 ++ e3 ++ e4 := by
  unfold validateFieldsErrors at h
  cases h2 : dateErrors d with
  | error e => rw [h2] at h; cases h
  | ok e2 =>
      rw [h2] at h
      cases h3 : vendorErrors d with
      | error e => rw [h3] at h; cases h
      | ok e3 =>
          rw [h3] at h
          cases h4 : amountStep d with
          | error e => rw [h4] at h; cases h
          | ok p =>
              obtain ⟨e4, d2'⟩ := p
              rw [h4] at h
              simp only [Except.ok.injEq, Prod.mk.injEq] at h
              obtain ⟨herrs, hd2⟩ := h
              subst hd2
              exact ⟨e2, e3, e4, rfl, rfl, rfl, herrs.symm⟩

/-- A successful validation in terms of its blocks. -/
theorem validate_of_fields (d : Dict) (errs : List String) (d2 : Dict)
    (h : validateFieldsErrors d = .ok (errs, d2)) :
    validate_invoice_data d = .ok (dictSet
      (dictSet d2 "status" (.vstr (if errs.isEmpty then "VALID" else "INVALID")))
      "errors" (.vstr (if errs.isEmpty then "" else joinSep "; " errs))) := by
  unfold validate_invoice_data
  rw [h]

/-- The OCR page fold accumulates non-whitespace content page-wise (the
blank-line separator contributes none). -/
theorem hasNonWs_ocrFold (rt : Nat) : ∀ (pages : List OcrPage) (acc : String),
    hasNonWs (pages.foldl (fun acc o => acc ++ (runPageOcr o (rt + 1) "" 0).1 ++ "\n\n") acc)
      = (hasNonWs acc || pages.any (fun o => hasNonWs (pageOcrText o rt))) := by
  intro pages
  induction pages with
  | nil => intro acc; simp
  | cons o os ih =>
      intro acc
      simp only [List.foldl_cons, List.any_cons]
      rw [ih, hasNonWs_append, hasNonWs_append]
      have hsep : hasNonWs "\n\n" = false := by decide
      rw [hsep]
      simp [pageOcrText, Bool.or_assoc]

/-- The per-page loop performs at most as many engine calls as it has
attempts. -/
theorem runPageOcr_calls_le (o : OcrPage) : ∀ (n : Nat) (acc : String) (used : Nat),
    (runPageOcr o n acc used).2 ≤ used + n := by
  intro n
  induction n with
  | zero => intro acc used; simp [runPageOcr]
  | succ n ih =>
      intro acc used
      have hstep : ∀ acc', (runPageOcr o n acc' (used + 1)).2 ≤ used + (n + 1) := by
        intro acc'
        calc (runPageOcr o n acc' (used + 1)).2 ≤ used + 1 + n := ih acc' (used + 1)
          _ = used + (n + 1) := by omega
      unfold runPageOcr
      cases h : o used with
      | ok rs =>
          show (if rs.isEmpty = true then runPageOcr o n acc (used + 1)
            else if pyStrip (joinSep "\n" rs) = "" then runPageOcr o n (joinSep "\n" rs) (used + 1)
            else (joinSep "\n" rs, used + 1)).2 ≤ used + (n + 1)
          by_cases hrs : rs.isEmpty = true
          · rw [if_pos hrs]
            exact hstep acc
          · rw [if_neg hrs]
            by_cases hst : pyStrip (joinSep "\n" rs) = ""
            · rw [if_pos hst]
              exact hstep _
            · rw [if_neg hst]
              show used + 1 ≤ used + (n + 1)
              omega
      | error e => exact hstep acc

/-- The first accepted attempt ends the per-page loop, whatever text was
accumulated by the rejected attempts before it. -/
theorem runPageOcr_first_nonblank (o : OcrPage) : ∀ (n k : Nat) (acc : String) (used : Nat),
    k < n → (∀ j, j < k → attemptNonBlank o (used + j) = false) →
    attemptNonBlank o (used + k) = true →
    runPageOcr o n acc used = (attemptText o (used + k), used + k + 1) := by
  intro n
  induction n with
  | zero => intro k acc used hk; omega
  | succ n ih =>
      intro k acc used hk hblank hnb
      cases k with
      | zero =>
          simp only [Nat.add_zero] at hnb ⊢
          unfold attemptNonBlank at hnb
          unfold runPageOcr attemptText
          cases h : o used with
          | ok rs =>
              rw [h] at hnb
              have hnb' : (!rs.isEmpty && hasNonWs (joinSep "\n" rs)) = true := hnb
              simp only [Bool.and_eq_true, Bool.not_eq_true'] at hnb'
              obtain ⟨hrs, hnw⟩ := hnb'
              have hrs' : ¬ rs.isEmpty = true := by
                rw [hrs]
                exact Bool.false_ne_true
              show (if rs.isEmpty = true then runPageOcr o n acc (used + 1)
                else if pyStrip (joinSep "\n" rs) = "" then runPageOcr o n (joinSep "\n" rs) (used + 1)
                else (joinSep "\n" rs, used + 1)) = (joinSep "\n" rs, used + 1)
              rw [if_neg hrs']
              have hst : ¬ pyStrip (joinSep "\n" rs) = "" := by
                intro hcon
                rw [(pyStrip_eq_empty_iff _).mp hcon] at hnw
                cases hnw
              rw [if_neg hst]
          | error e =>
              rw [h] at hnb
              have hnb' : false = true := hnb
              cases hnb'
      | succ k' =>
          have hstep : attemptNonBlank o used = false := by
            have := hblank 0 (by omega)
            rwa [Nat.add_zero] at this
          have hblank' : ∀ j, j < k' → attemptNonBlank o (used + 1 + j) = false := by
            intro j hj
            have := hblank (j + 1) (by omega)
            rwa [show used + (j + 1) = used + 1 + j by omega] at this
          have hnb' : attemptNonBlank o (used + 1 + k') = true := by
            rwa [show used + (k' + 1) = used + 1 + k' by omega] at hnb
          have hres : ∀ acc', runPageOcr o n acc' (used + 1) =
              (attemptText o (used + 1 + k'), used + 1 + k' + 1) :=
            fun acc' => ih k' acc' (used + 1) (by omega) hblank' hnb'
          have hgoal : (attemptText o (used + 1 + k'), used + 1 + k' + 1) =
              (attemptText o (used + (k' + 1)), used + (k' + 1) + 1) := by
            rw [show used + 1 + k' = used + (k' + 1) by omega]
          unfold attemptNonBlank at hstep
          unfold runPageOcr
          cases h : o used with
          | ok rs =>
              rw [h] at hstep
              have hstep' : (!rs.isEmpty && hasNonWs (joinSep "\n" rs)) = false := hstep
              show (if rs.isEmpty = true then runPageOcr o n acc (used + 1)
                else if pyStrip (joinSep "\n" rs) = "" then runPageOcr o n (joinSep "\n" rs) (used + 1)
                else (joinSep "\n" rs, used + 1)) =
                  (attemptText o (used + (k' + 1)), used + (k' + 1) + 1)
              by_cases hrs : rs.isEmpty = true
              · rw [if_pos hrs, hres acc]
                exact hgoal
              · rw [if_neg hrs]
                have hrsf : rs.isEmpty = false := Bool.of_not_eq_true hrs
                rw [hrsf] at hstep'
                simp only [Bool.not_false, Bool.true_and] at hstep'
                have hst : pyStrip (joinSep "\n" rs) = "" := (pyStrip_eq_empty_iff _).mpr hstep'
                rw [if_pos hst, hres (joinSep "\n" rs)]
                exact hgoal
          | error e =>
              show runPageOcr o n acc (used + 1) =
                (attemptText o (used + (k' + 1)), used + (k' + 1) + 1)
              rw [hres acc]
              exact hgoal

/-- When every attempt raises, the page keeps its initial (empty) text and
the whole retry budget is spent. -/
theorem runPageOcr_all_errors (o : OcrPage) : ∀ (n : Nat) (acc : String) (used : Nat),
    (∀ j, j < n → o (used + j) = .error ()) →
    runPageOcr o n acc used = (acc, used + n) := by
  intro n
  induction n with
  | zero => intro acc used _; simp [runPageOcr]
  | succ n ih =>
      intro acc used herr
      have h0 : o used = .error () := by
        have := herr 0 (by omega)
        rwa [Nat.add_zero] at this
      have herr' : ∀ j, j < n → o (used + 1 + j) = .error () := by
        intro j hj
        have := herr (j + 1) (by omega)
        rwa [show used + (j + 1) = used + 1 + j by omega] at this
      unfold runPageOcr
      cases h : o used with
      | ok rs => rw [h] at h0; cases h0
      | error e =>
          show runPageOcr o n acc (used + 1) = (acc, used + (n + 1))
          rw [ih acc (used + 1) herr']
          rw [show used + 1 + n = used + (n + 1) by omega]

/-- The OCR text is the per-page texts concatenated, each followed by the
blank-line separator. -/
theorem extract_text_with_ocr_map (rt : Nat) (pages : List OcrPage) :
    extract_text_with_ocr true rt pages =
      (pages.map (fun o => pageOcrText o rt)).foldl (fun acc t => acc ++ t ++ "\n\n") "" := by
  unfold extract_text_with_ocr
  rw [if_pos rfl, List.foldl_map]
  rfl

/-- Direct-text acceptance is a failure-free record build; helper giving
each branch of `extract_text_from_pdf` in closed form. -/
theorem extract_branch_direct (en : Bool) (rt : Nat) (dp : List (Option String))
    (op : List OcrPage) (hwc : 50 ≤ wordCount (extract_text_with_pdfplumber dp)) :
    extract_text_from_pdf en rt dp op =
      { text := extract_text_with_pdfplumber dp, extraction_method := "DIRECT",
        text_length := (extract_text_with_pdfplumber dp).length,
        confidence_score := "HIGH_DIRECT" } := by
  simp only [extract_text_from_pdf]
  rw [if_pos hwc]

/-- The OCR branch of `extract_text_from_pdf` in closed form. -/
theorem extract_branch_ocr (rt : Nat) (dp : List (Option String)) (op : List OcrPage)
    (hwc : ¬ 50 ≤ wordCount (extract_text_with_pdfplumber dp))
    (hocr : ¬ pyStrip (extract_text_with_ocr true rt op) = "") :
    extract_text_from_pdf true rt dp op =
      { text := extract_text_with_ocr true rt op, extraction_method := "OCR",
        text_length := (extract_text_with_ocr true rt op).length,
        confidence_score := "OCR_COMPLETED" } := by
  simp only [extract_text_from_pdf]
  rw [if_neg hwc, if_pos trivial, if_neg hocr]

/-- The failure branch of `extract_text_from_pdf` with OCR enabled. -/
theorem extract_branch_failed_ocr (rt : Nat) (dp : List (Option String)) (op : List OcrPage)
    (hwc : ¬ 50 ≤ wordCount (extract_text_with_pdfplumber dp))
    (hocr : pyStrip (extract_text_with_ocr true rt op) = "") :
    extract_text_from_pdf true rt dp op =
      { text := extract_text_with_pdfplumber dp, extraction_method := "DIRECT_FAILED",
        text_length := (extract_text_with_pdfplumber dp).length,
        confidence_score := "N/A" } := by
  simp only [extract_text_from_pdf]
  rw [if_neg hwc, if_pos trivial, if_pos hocr]
  rfl

/-- The failure branch of `extract_text_from_pdf` with OCR disabled. -/
theorem extract_branch_failed_noocr (rt : Nat) (dp : List (Option String)) (op : List OcrPage)
    (hwc : ¬ 50 ≤ wordCount (extract_text_with_pdfplumber dp)) :
    extract_text_from_pdf false rt dp op =
      { text := extract_text_with_pdfplumber dp, extraction_method := "DIRECT_FAILED",
        text_length := (extract_text_with_pdfplumber dp).length,
        confidence_score := "N/A" } := by
  simp only [extract_text_from_pdf]
  rw [if_neg hwc]
  simp [initialExtractionResult]

/-- Non-whitespace content of the OCR text is exactly some page having
non-whitespace text. -/
theorem hasNonWs_extract_ocr (rt : Nat) (op : List OcrPage) :
    hasNonWs (extract_text_with_ocr true rt op) =
      op.any (fun o => hasNonWs (pageOcrText o rt)) := by
  unfold extract_text_with_ocr
  rw [if_pos rfl, hasNonWs_ocrFold]
  simp [hasNonWs]

/-- Claim C8: every ExtractionResult produced by extraction, in any of the
DIRECT, OCR or DIRECT_FAILED branches, as well as the initial UNKNOWN
value, satisfies the invariant text_length = length(text). -/
theorem extraction_length_invariant :
    (∀ (en : Bool) (rt : Nat) (dp : List (Option String)) (op : List OcrPage),
      (extract_text_from_pdf en rt dp op).text_length =
        (extract_text_from_pdf en rt dp op).text.length)
    ∧ initialExtractionResult.text_length = initialExtractionResult.text.length := by
  constructor
  · intro en rt dp op
    by_cases hwc : 50 ≤ wordCount (extract_text_with_pdfplumber dp)
    · rw [extract_branch_direct en rt dp op hwc]
    · cases en with
      | true =>
          by_cases hocr : pyStrip (extract_text_with_ocr true rt op) = ""
          · rw [extract_branch_failed_ocr rt dp op hwc hocr]
          · rw [extract_branch_ocr rt dp op hwc hocr]
      | false => rw [extract_branch_failed_noocr rt dp op hwc]
  · rfl

/-- Claim C2 (amended): extraction returns method DIRECT with confidence
HIGH_DIRECT and the concatenated per-page direct text exactly when the
direct word count is at least 50; otherwise, with OCR enabled, it returns
method OCR with confidence OCR_COMPLETED when some page's final OCR text
contains a non-whitespace character (the code's `ocr_text.strip()` test),
and otherwise the direct text with method DIRECT_FAILED. -/
theorem extract_method_selection :
    ∀ (en : Bool) (rt : Nat) (dp : List (Option String)) (op : List OcrPage),
      (((extract_text_from_pdf en rt dp op).extraction_method = "DIRECT" ∧
        (extract_text_from_pdf en rt dp op).confidence_score = "HIGH_DIRECT" ∧
        (extract_text_from_pdf en rt dp op).text = extract_text_with_pdfplumber dp) ↔
        50 ≤ wordCount (extract_text_with_pdfplumber dp))
      ∧ (wordCount (extract_text_with_pdfplumber dp) < 50 → en = true →
          (∃ o ∈ op, hasNonWs (pageOcrText o rt) = true) →
          extract_text_from_pdf en rt dp op =
            { text := extract_text_with_ocr true rt op, extraction_method := "OCR",
              text_length := (extract_text_with_ocr true rt op).length,
              confidence_score := "OCR_COMPLETED" })
      ∧ (wordCount (extract_text_with_pdfplumber dp) < 50 →
          (en = false ∨ ∀ o ∈ op, hasNonWs (pageOcrText o rt) = false) →
          extract_text_from_pdf en rt dp op =
            { text := extract_text_with_pdfplumber dp,
              extraction_method := "DIRECT_FAILED",
              text_length := (extract_text_with_pdfplumber dp).length,
              confidence_score := "N/A" }) := by
  intro en rt dp op
  refine ⟨?_, ?_, ?_⟩
  · constructor
    · intro hconj
      by_contra hwc
      have hm : (extract_text_from_pdf en rt dp op).extraction_method ≠ "DIRECT" := by
        cases en with
        | true =>
            by_cases hocr : pyStrip (extract_text_with_ocr true rt op) = ""
            · rw [extract_branch_failed_ocr rt dp op hwc hocr]
              show ("DIRECT_FAILED" : String) ≠ "DIRECT"
              decide
            · rw [extract_branch_ocr rt dp op hwc hocr]
              show ("OCR" : String) ≠ "DIRECT"
              decide
        | false =>
            rw [extract_branch_failed_noocr rt dp op hwc]
            show ("DIRECT_FAILED" : String) ≠ "DIRECT"
            decide
      exact hm hconj.1
    · intro hwc
      rw [extract_branch_direct en rt dp op hwc]
      exact ⟨rfl, rfl, rfl⟩
  · intro h50 hen hex
    subst hen
    have hwc : ¬ 50 ≤ wordCount (extract_text_with_pdfplumber dp) := by omega
    have hany : op.any (fun o => hasNonWs (pageOcrText o rt)) = true :=
      List.any_eq_true.mpr (by
        obtain ⟨o, ho, hnw⟩ := hex
        exact ⟨o, ho, hnw⟩)
    have hocr : ¬ pyStrip (extract_text_with_ocr true rt op) = "" := by
      intro hcon
      have := (pyStrip_eq_empty_iff _).mp hcon
      rw [hasNonWs_extract_ocr] at this
      rw [this] at hany
      cases hany
    exact extract_branch_ocr rt dp op hwc hocr
  · intro h50 hcase
    have hwc : ¬ 50 ≤ wordCount (extract_text_with_pdfplumber dp) := by omega
    cases hcase with
    | inl hen =>
        subst hen
        exact extract_branch_failed_noocr rt dp op hwc
    | inr hall =>
        cases en with
        | false => exact extract_branch_failed_noocr rt dp op hwc
        | true =>
            have hany : op.any (fun o => hasNonWs (pageOcrText o rt)) = false := by
              rw [List.any_eq_false]
              intro o ho
              rw [hall o ho]
              decide
            have hocr : pyStrip (extract_text_with_ocr true rt op) = "" := by
              rw [pyStrip_eq_empty_iff, hasNonWs_extract_ocr]
              exact hany
            exact extract_branch_failed_ocr rt dp op hwc hocr

set_option maxRecDepth 4000 in
/-- Witness for C2: the three branches realized at concrete inputs. -/
theorem extract_method_selection_witness :
    (extract_text_from_pdf true 0 [some fiftyWords] []).extraction_method = "DIRECT" ∧
    (extract_text_from_pdf true 1 [] [fun _ => Except.ok ["abc"]]).extraction_method = "OCR" ∧
    (extract_text_from_pdf false 0 [some "short"] []).extraction_method = "DIRECT_FAILED" := by
  refine ⟨?_, ?_, ?_⟩
  · exact ((extract_method_selection true 0 [some fiftyWords] []).1.mpr (by decide)).1
  · have h := (extract_method_selection true 1 [] [fun _ => Except.ok ["abc"]]).2.1
      (by decide) rfl
      ⟨fun _ => Except.ok ["abc"], List.mem_singleton_self _, by decide⟩
    rw [h]
  · have h := (extract_method_selection false 0 [some "short"] []).2.2 (by decide) (Or.inl rfl)
    rw [h]

/-- Counterexample for C2 as stated: with OCR enabled and a page whose OCR
attempt yields the non-empty text " ", extraction nevertheless returns
DIRECT_FAILED, because the code tests `ocr_text.strip()`, not emptiness. -/
theorem extract_ocr_blank_counterexample :
    pageOcrText (fun _ => Except.ok [" "]) 0 = " " ∧ (" " : String) ≠ "" ∧
    (extract_text_from_pdf true 0 [] [fun _ => Except.ok [" "]]).extraction_method =
      "DIRECT_FAILED" ∧ ("DIRECT_FAILED" : String) ≠ "OCR" := by
  refine ⟨rfl, by decide, rfl, by decide⟩

/-- Claim C9 (amended): per page the OCR engine is invoked at most
ocr_retries + 1 times; the first attempt whose joined text has
non-whitespace content (the code's `page_text.strip()` test) ends the
retries for that page; if every attempt raises, the attempts are exhausted
and the page contributes empty text; per-page texts are concatenated each
followed by a blank-line separator. -/
theorem ocr_retry_budget :
    (∀ (o : OcrPage) (rt : Nat), pageOcrCalls o rt ≤ rt + 1)
    ∧ (∀ (o : OcrPage) (rt k : Nat), k < rt + 1 →
        (∀ j, j < k → attemptNonBlank o j = false) → attemptNonBlank o k = true →
        runPageOcr o (rt + 1) "" 0 = (attemptText o k, k + 1))
    ∧ (∀ (o : OcrPage) (rt : Nat), (∀ j, j < rt + 1 → o j = .error ()) →
        runPageOcr o (rt + 1) "" 0 = ("", rt + 1))
    ∧ (∀ (rt : Nat) (pages : List OcrPage), extract_text_with_ocr true rt pages =
        (pages.map (fun o => pageOcrText o rt)).foldl (fun acc t => acc ++ t ++ "\n\n") "") := by
  refine ⟨?_, ?_, ?_, ?_⟩
  · intro o rt
    have h := runPageOcr_calls_le o (rt + 1) "" 0
    simpa [pageOcrCalls] using h
  · intro o rt k hk hblank hnb
    have h := runPageOcr_first_nonblank o (rt + 1) k "" 0 hk
      (by intro j hj; rw [Nat.zero_add]; exact hblank j hj)
      (by rw [Nat.zero_add]; exact hnb)
    rwa [Nat.zero_add] at h
  · intro o rt herr
    have h := runPageOcr_all_errors o (rt + 1) "" 0
      (by intro j hj; rw [Nat.zero_add]; exact herr j hj)
    rwa [Nat.zero_add] at h
  · exact extract_text_with_ocr_map

/-- Witness for C9: the budget, acceptance and exhaustion cases at
concrete oracles. -/
theorem ocr_retry_budget_witness :
    pageOcrCalls (fun _ => Except.ok []) 2 ≤ 3 ∧
    runPageOcr (fun _ => Except.ok ["hi"]) 3 "" 0 = ("hi", 1) ∧
    runPageOcr (fun _ => Except.error ()) 2 "" 0 = ("", 2) := by
  refine ⟨ocr_retry_budget.1 (fun _ => Except.ok []) 2, ?_, ?_⟩
  · exact ocr_retry_budget.2.1 (fun _ => Except.ok ["hi"]) 2 0 (by omega)
      (by intro j hj; omega) (by decide)
  · exact ocr_retry_budget.2.2.1 (fun _ => Except.error ()) 1 (fun j hj => rfl)

/-- Counterexample for C9 as stated: the first attempt yields the
non-empty text " ", yet the loop does not stop there; the engine is
invoked a second time and the page text comes from attempt 2. -/
theorem ocr_retry_blank_counterexample :
    (fun i => if i = 0 then Except.ok [" "] else Except.ok ["x"] : OcrPage) 0 =
      Except.ok [" "] ∧
    joinSep "\n" [" "] = " " ∧ (" " : String) ≠ "" ∧
    runPageOcr (fun i => if i = 0 then Except.ok [" "] else Except.ok ["x"]) 2 "" 0 =
      ("x", 2) ∧ (2 : Nat) ≠ 1 := by
  refine ⟨rfl, rfl, by decide, rfl, by decide⟩

/-- Claim C4 (amended): a per-file run whose extracted text is empty (or
blank) short-circuits before parsing: all four fields are set to None,
status is INVALID, and errors is the single message "No text extracted
from PDF." — not the validator's four missing-field messages. -/
theorem empty_text_record :
    ∀ (fn : String) (er : ExtractionResult) (parse : String → Except PyErr Dict)
      (validate : Dict → Except PyErr Dict) (summarize : Dict → Dict → String),
      pyStrip er.text = "" →
      process_single_invoice fn (.ok er) parse validate summarize =
        .ok (noTextRecord fn er) := by
  intro fn er parse validate summarize h
  simp only [process_single_invoice]
  rw [if_pos h]
  rfl

/-- Witness for C4: the short-circuit realized on a concrete empty-text
extraction result. -/
theorem empty_text_record_witness :
    process_single_invoice "w.pdf"
      (.ok { text := "", extraction_method := "DIRECT_FAILED", text_length := 0,
             confidence_score := "N/A" })
      trivParse validate_invoice_data trivSummary =
      .ok (noTextRecord "w.pdf"
        { text := "", extraction_method := "DIRECT_FAILED", text_length := 0,
          confidence_score := "N/A" }) :=
  empty_text_record "w.pdf"
    { text := "", extraction_method := "DIRECT_FAILED", text_length := 0,
      confidence_score := "N/A" }
    trivParse validate_invoice_data trivSummary (by decide)

/-- Counterexample for C4 as stated: on empty text the produced record's
errors value is the single no-text message, which contains none of the four
missing-field messages. -/
theorem empty_text_errors_counterexample :
    process_single_invoice "inv1.pdf"
      (.ok { text := "", extraction_method := "DIRECT_FAILED", text_length := 0,
             confidence_score := "N/A" })
      trivParse validate_invoice_data trivSummary =
      .ok (noTextRecord "inv1.pdf"
        { text := "", extraction_method := "DIRECT_FAILED", text_length := 0,
          confidence_score := "N/A" }) ∧
    dictGet? (noTextRecord "inv1.pdf"
        { text := "", extraction_method := "DIRECT_FAILED", text_length := 0,
          confidence_score := "N/A" }) "errors" = some (.vstr noTextMsg) ∧
    dictGet? (noTextRecord "inv1.pdf"
        { text := "", extraction_method := "DIRECT_FAILED", text_length := 0,
          confidence_score := "N/A" }) "status" = some (.vstr "INVALID") ∧
    dictGet? (noTextRecord "inv1.pdf"
        { text := "", extraction_method := "DIRECT_FAILED", text_length := 0,
          confidence_score := "N/A" }) "invoice_number" = some PyVal.none ∧
    strContains noTextMsg invMissingMsg = false ∧
    strContains noTextMsg dateMissingMsg = false ∧
    strContains noTextMsg vendorMissingMsg = false ∧
    strContains noTextMsg amtMissingMsg = false := by
  exact ⟨rfl, rfl, rfl, rfl, by decide, by decide, by decide, by decide⟩

/-- Claim C3 (amended): an exception raised by the extraction stage is
caught inside the per-file pipeline, which returns an INVALID record
carrying an extraction-error message — the file stays in the result set;
an exception raised by the parsing (or validation) stage propagates, and
the orchestrator's collection loop drops exactly the files whose outcome
is an exception, keeping one record per successful file. -/
theorem pipeline_error_containment :
    (∀ (fn : String) (e : PyErr) (parse : String → Except PyErr Dict)
        (validate : Dict → Except PyErr Dict) (summarize : Dict → Dict → String),
        process_single_invoice fn (.error e) parse validate summarize =
          .ok (extractionErrorRecord fn e))
    ∧ (∀ (fn : String) (er : ExtractionResult) (e : PyErr)
        (validate : Dict → Except PyErr Dict) (summarize : Dict → Dict → String),
        pyStrip er.text ≠ "" →
        process_single_invoice fn (.ok er) (fun _ => .error e) validate summarize =
          .error e)
    ∧ (∀ outcomes : List (Except PyErr Dict),
        (collectResults outcomes).length = (outcomes.filter isOkOutcome).length
        ∧ ∀ d, d ∈ collectResults outcomes ↔ Except.ok d ∈ outcomes) := by
  refine ⟨?_, ?_, ?_⟩
  · intro fn e parse validate summarize
    rfl
  · intro fn er e validate summarize h
    simp only [process_single_invoice]
    rw [if_neg h]
  · intro outcomes
    constructor
    · induction outcomes with
      | nil => rfl
      | cons o os ih =>
          cases o with
          | ok d =>
              simp only [collectResults, List.filterMap_cons, List.filter_cons] at ih ⊢
              simp only [isOkOutcome, if_true, List.length_cons]
              rw [ih]
          | error e =>
              simp only [collectResults, List.filterMap_cons, List.filter_cons] at ih ⊢
              simp only [isOkOutcome, Bool.false_eq_true, if_false]
              exact ih
    · intro d
      unfold collectResults
      rw [List.mem_filterMap]
      constructor
      · rintro ⟨o, ho, hf⟩
        cases o with
        | ok d' =>
            have hf' : some d' = some d := hf
            rw [(Option.some.injEq _ _).mp hf'] at ho
            exact ho
        | error e =>
            have hf' : Option.none = some d := hf
            cases hf'
      · intro hd
        exact ⟨Except.ok d, hd, rfl⟩

/-- Witness for C3: a parse-stage exception excludes the file. -/
theorem pipeline_error_containment_witness :
    process_single_invoice "f.pdf"
      (.ok { text := "x", extraction_method := "DIRECT", text_length := 1,
             confidence_score := "HIGH_DIRECT" })
      (fun _ => .error (.valueError "parse boom")) validate_invoice_data trivSummary =
      .error (.valueError "parse boom") :=
  pipeline_error_containment.2.1 "f.pdf"
    { text := "x", extraction_method := "DIRECT", text_length := 1,
      confidence_score := "HIGH_DIRECT" }
    (.valueError "parse boom") validate_invoice_data trivSummary (by decide)

/-- Counterexample for C3 as stated: five files of which one throws during
extraction yield five records, the failing file being present as an
INVALID record with an extraction-error message, not excluded. -/
theorem batch_extraction_error_counterexample :
    (let blankEr : ExtractionResult :=
        { text := "", extraction_method := "DIRECT_FAILED", text_length := 0,
          confidence_score := "N/A" };
     let outcomes : List (Except PyErr Dict) :=
        [process_single_invoice "a.pdf" (.ok blankEr) trivParse validate_invoice_data trivSummary,
         process_single_invoice "b.pdf" (.ok blankEr) trivParse validate_invoice_data trivSummary,
         process_single_invoice "c.pdf" (.error (.valueError "boom")) trivParse
           validate_invoice_data trivSummary,
         process_single_invoice "d.pdf" (.ok blankEr) trivParse validate_invoice_data trivSummary,
         process_single_invoice "e.pdf" (.ok blankEr) trivParse validate_invoice_data trivSummary];
     (collectResults outcomes).length = 5 ∧
       (collectResults outcomes).map (fun d => dGetN d "filename") =
         [.vstr "a.pdf", .vstr "b.pdf", .vstr "c.pdf", .vstr "d.pdf", .vstr "e.pdf"] ∧
       dGetN ((collectResults outcomes).getD 2 []) "status" = .vstr "INVALID" ∧
       dGetN ((collectResults outcomes).getD 2 []) "errors" =
         .vstr "Extraction error: boom") := by
  exact ⟨rfl, rfl, rfl, rfl⟩

/-- A `.get` result equal to a string value is a present binding. -/
theorem dictGet?_of_dGetN_vstr (d : Dict) (k : String) (s : String)
    (h : dGetN d k = .vstr s) : dictGet? d k = some (.vstr s) := by
  unfold dGetN at h
  cases hg : dictGet? d k with
  | none => rw [hg] at h; cases h
  | some v => rw [hg] at h; simp only [Option.getD_some] at h; rw [h]

/-- The amount block changes no key other than `total_amount`. -/
theorem amountStep_frame (d : Dict) (e4 : List String) (d2 : Dict)
    (h4 : amountStep d = .ok (e4, d2)) :
    ∀ k, k ≠ "total_amount" → dictGet? d2 k = dictGet? d k := by
  unfold amountStep at h4
  cases hb : pyTruthy (dGetN d "total_amount") with
  | false =>
      rw [hb] at h4
      simp only [Bool.not_false, if_true, Except.ok.injEq, Prod.mk.injEq] at h4
      rw [← h4.2]
      intro k _
      rfl
  | true =>
      rw [hb] at h4
      simp only [Bool.not_true, Bool.false_eq_true, if_false] at h4
      cases hv : dGetN d "total_amount" with
      | vstr s =>
          rw [hv] at h4
          have h4' : (match pyFloatOfString (cleanAmount s) with
              | some x => Except.ok ((if pyFloatLe0 x then [amtGtZeroMsg s] else []),
                  dictSet d "total_amount" (PyVal.vnum x))
              | Option.none => Except.ok ([amtNotNumMsg s], d)) = Except.ok (e4, d2) := h4
          cases hp : pyFloatOfString (cleanAmount s) with
          | none =>
              rw [hp] at h4'
              simp only [Except.ok.injEq, Prod.mk.injEq] at h4'
              rw [← h4'.2]
              intro k _
              rfl
          | some x =>
              rw [hp] at h4'
              simp only [Except.ok.injEq, Prod.mk.injEq] at h4'
              rw [← h4'.2]
              intro k hk
              exact dictGet?_set_ne d "total_amount" k (.vnum x) hk
      | none => rw [hv] at h4; cases h4
      | vint n => rw [hv] at h4; cases h4
      | vnum f => rw [hv] at h4; cases h4

/-- The four missing-field messages appear in the accumulated error list
exactly when the corresponding field is falsy. -/
theorem errs_missing_iffs (d : Dict) (errs : List String) (d2 : Dict)
    (hfe : validateFieldsErrors d = .ok (errs, d2)) :
    (invMissingMsg ∈ errs ↔ pyTruthy (dGetN d "invoice_number") = false)
    ∧ (dateMissingMsg ∈ errs ↔ pyTruthy (dGetN d "date") = false)
    ∧ (vendorMissingMsg ∈ errs ↔ pyTruthy (dGetN d "vendor") = false)
    ∧ (amtMissingMsg ∈ errs ↔ pyTruthy (dGetN d "total_amount") = false) := by
  obtain ⟨e2, e3, e4, h2, h3, h4, herrs⟩ := validateFieldsErrors_ok d errs d2 hfe
  subst herrs
  have hmem : ∀ m : String,
      (m ∈ invoiceNumErrors d ++ e2 ++ e3 ++ e4 ↔
        m ∈ invoiceNumErrors d ∨ m ∈ e2 ∨ m ∈ e3 ∨ m ∈ e4) := by
    intro m
    simp [List.mem_append, or_assoc]
  refine ⟨?_, ?_, ?_, ?_⟩
  · rw [hmem]
    constructor
    · rintro (hm | hm | hm | hm)
      · exact ((invoiceNumErrors_char d _).mp hm).2
      · exact absurd (dateErrors_headD d e2 h2 _ hm) (by decide)
      · exact absurd (vendorErrors_headV d e3 h3 _ hm) (by decide)
      · exact absurd (amountStep_headT d e4 d2 h4 _ hm) (by decide)
    · intro hb
      exact Or.inl ((invoiceNumErrors_char d _).mpr ⟨rfl, hb⟩)
  · rw [hmem]
    constructor
    · rintro (hm | hm | hm | hm)
      · exact absurd ((invoiceNumErrors_char d _).mp hm).1 (by decide)
      · exact (dateErrors_missing_char d e2 h2).mp hm
      · exact absurd (vendorErrors_headV d e3 h3 _ hm) (by decide)
      · exact absurd (amountStep_headT d e4 d2 h4 _ hm) (by decide)
    · intro hb
      exact Or.inr (Or.inl ((dateErrors_missing_char d e2 h2).mpr hb))
  · rw [hmem]
    constructor
    · rintro (hm | hm | hm | hm)
      · exact absurd ((invoiceNumErrors_char d _).mp hm).1 (by decide)
      · exact absurd (dateErrors_headD d e2 h2 _ hm) (by decide)
      · exact (vendorErrors_missing_char d e3 h3).mp hm
      · exact absurd (amountStep_headT d e4 d2 h4 _ hm) (by decide)
    · intro hb
      exact Or.inr (Or.inr (Or.inl ((vendorErrors_missing_char d e3 h3).mpr hb)))
  · rw [hmem]
    constructor
    · rintro (hm | hm | hm | hm)
      · exact absurd ((invoiceNumErrors_char d _).mp hm).1 (by decide)
      · exact absurd (dateErrors_headD d e2 h2 _ hm) (by decide)
      · exact absurd (vendorErrors_headV d e3 h3 _ hm) (by decide)
      · exact (amountStep_missing_char d e4 d2 h4).mp hm
    · intro hb
      exact Or.inr (Or.inr (Or.inr ((amountStep_missing_char d e4 d2 h4).mpr hb)))

/-- Amount-rule contributions to the accumulated error list for a truthy
string amount. -/
theorem errs_amount_cases (d : Dict) (errs : List String) (d2 : Dict)
    (hfe : validateFieldsErrors d = .ok (errs, d2)) (s : String)
    (hget : dGetN d "total_amount" = .vstr s) (hs : s ≠ "") :
    (pyFloatOfString (cleanAmount s) = Option.none → amtNotNumMsg s ∈ errs)
    ∧ (∀ x, pyFloatOfString (cleanAmount s) = some x → pyFloatLe0 x = true →
        amtGtZeroMsg s ∈ errs)
    ∧ (∀ x, pyFloatOfString (cleanAmount s) = some x → pyFloatGt0 x = true →
        amtGtZeroMsg s ∉ errs ∧ amtNotNumMsg s ∉ errs ∧ amtMissingMsg ∉ errs) := by
  obtain ⟨e2, e3, e4, h2, h3, h4, herrs⟩ := validateFieldsErrors_ok d errs d2 hfe
  subst herrs
  have hmem : ∀ m : String,
      (m ∈ invoiceNumErrors d ++ e2 ++ e3 ++ e4 ↔
        m ∈ invoiceNumErrors d ∨ m ∈ e2 ∨ m ∈ e3 ∨ m ∈ e4) := by
    intro m
    simp [List.mem_append, or_assoc]
  refine ⟨?_, ?_, ?_⟩
  · intro hp
    have hstep := amountStep_vstr_none d s hget hs hp
    rw [hstep] at h4
    have he4 : e4 = [amtNotNumMsg s] :=
      (congrArg Prod.fst ((Except.ok.injEq _ _).mp h4)).symm
    rw [hmem]
    right; right; right
    rw [he4]
    exact List.mem_singleton_self _
  · intro x hp hle
    have hstep := amountStep_vstr_some d s x hget hs hp
    rw [hstep] at h4
    have he4 : e4 = if pyFloatLe0 x then [amtGtZeroMsg s] else [] :=
      (congrArg Prod.fst ((Except.ok.injEq _ _).mp h4)).symm
    rw [hmem]
    right; right; right
    rw [he4, if_pos hle]
    exact List.mem_singleton_self _
  · intro x hp hgt
    have hstep := amountStep_vstr_some d s x hget hs hp
    rw [hstep] at h4
    have he4 : e4 = if pyFloatLe0 x then [amtGtZeroMsg s] else [] :=
      (congrArg Prod.fst ((Except.ok.injEq _ _).mp h4)).symm
    have hle : pyFloatLe0 x = false := pyFloatGt0_not_le0 x hgt
    rw [hle] at he4
    simp only [Bool.false_eq_true, if_false] at he4
    have hinv : ∀ m : String, m ∈ invoiceNumErrors d → m = invMissingMsg :=
      fun m hm => ((invoiceNumErrors_char d m).mp hm).1
    refine ⟨?_, ?_, ?_⟩
    · rw [hmem]
      rintro (hm | hm | hm | hm)
      · have := hinv _ hm
        have hh : (amtGtZeroMsg s).data[0]? = invMissingMsg.data[0]? := by rw [this]
        rw [amtGtZeroMsg_head] at hh
        exact absurd hh (by decide)
      · have := dateErrors_headD d e2 h2 _ hm
        rw [amtGtZeroMsg_head] at this
        exact absurd this (by decide)
      · have := vendorErrors_headV d e3 h3 _ hm
        rw [amtGtZeroMsg_head] at this
        exact absurd this (by decide)
      · rw [he4] at hm
        cases hm
    · rw [hmem]
      rintro (hm | hm | hm | hm)
      · have := hinv _ hm
        have hh : (amtNotNumMsg s).data[0]? = invMissingMsg.data[0]? := by rw [this]
        rw [amtNotNumMsg_head] at hh
        exact absurd hh (by decide)
      · have := dateErrors_headD d e2 h2 _ hm
        rw [amtNotNumMsg_head] at this
        exact absurd this (by decide)
      · have := vendorErrors_headV d e3 h3 _ hm
        rw [amtNotNumMsg_head] at this
        exact absurd this (by decide)
      · rw [he4] at hm
        cases hm
    · rw [hmem]
      rintro (hm | hm | hm | hm)
      · exact absurd (hinv _ hm) (by decide)
      · exact absurd (dateErrors_headD d e2 h2 _ hm) (by decide)
      · exact absurd (vendorErrors_headV d e3 h3 _ hm) (by decide)
      · rw [he4] at hm
        cases hm

/-- Claim C5 (amended): validation re-types total_amount to its parsed
float whenever the cleaned string parses — including when the parsed value
is not greater than zero, i.e. even for a record with the amount
validation error (validator.py:53 runs after the check on line 51); only
an unparsable amount leaves the field as the original string; and no key
other than total_amount, status and errors is modified. -/
theorem amount_retype_frame :
    (∀ (d : Dict) (s : String) (d' : Dict),
      dGetN d "total_amount" = .vstr s → s ≠ "" →
      validate_invoice_data d = .ok d' →
      ((∀ x, pyFloatOfString (cleanAmount s) = some x →
          dictGet? d' "total_amount" = some (.vnum x))
      ∧ (pyFloatOfString (cleanAmount s) = Option.none →
          dictGet? d' "total_amount" = some (.vstr s))))
    ∧ (∀ (d d' : Dict), validate_invoice_data d = .ok d' →
        ∀ k, k ≠ "total_amount" → k ≠ "status" → k ≠ "errors" →
          dictGet? d' k = dictGet? d k) := by
  constructor
  · intro d s d' hget hs hv
    cases hfe : validateFieldsErrors d with
    | error e => unfold validate_invoice_data at hv; rw [hfe] at hv; cases hv
    | ok p =>
        obtain ⟨errs, d2⟩ := p
        have hveq := validate_of_fields d errs d2 hfe
        rw [hveq] at hv
        have hd' := ((Except.ok.injEq _ _).mp hv).symm
        obtain ⟨e2, e3, e4, h2, h3, h4, herrs⟩ := validateFieldsErrors_ok d errs d2 hfe
        have hchain : dictGet? d' "total_amount" = dictGet? d2 "total_amount" := by
          rw [hd', dictGet?_set_ne _ _ _ _ (by decide), dictGet?_set_ne _ _ _ _ (by decide)]
        constructor
        · intro x hx
          have hstep := amountStep_vstr_some d s x hget hs hx
          rw [hstep] at h4
          have hd2 : d2 = dictSet d "total_amount" (.vnum x) :=
            (congrArg Prod.snd ((Except.ok.injEq _ _).mp h4)).symm
          rw [hchain, hd2, dictGet?_set_self]
        · intro hx
          have hstep := amountStep_vstr_none d s hget hs hx
          rw [hstep] at h4
          have hd2 : d2 = d := (congrArg Prod.snd ((Except.ok.injEq _ _).mp h4)).symm
          rw [hchain, hd2]
          exact dictGet?_of_dGetN_vstr d _ s hget
  · intro d d' hv k hk1 hk2 hk3
    cases hfe : validateFieldsErrors d with
    | error e => unfold validate_invoice_data at hv; rw [hfe] at hv; cases hv
    | ok p =>
        obtain ⟨errs, d2⟩ := p
        have hveq := validate_of_fields d errs d2 hfe
        rw [hveq] at hv
        have hd' := ((Except.ok.injEq _ _).mp hv).symm
        obtain ⟨e2, e3, e4, h2, h3, h4, herrs⟩ := validateFieldsErrors_ok d errs d2 hfe
        rw [hd', dictGet?_set_ne _ _ _ _ hk3, dictGet?_set_ne _ _ _ _ hk2]
        exact amountStep_frame d e4 d2 h4 k hk1

/-- Witness for C5: the retype and frame clauses at a concrete record. -/
theorem amount_retype_frame_witness :
    dictGet? (dictSet (dictSet
        [("invoice_number", PyVal.vstr "INV-1"), ("total_amount", PyVal.vnum (PyFloat.finite 7))]
        "status" (.vstr "INVALID"))
        "errors" (.vstr (joinSep "; " [dateMissingMsg, vendorMissingMsg])))
      "total_amount" = some (.vnum (PyFloat.finite 7)) ∧
    dictGet? (dictSet (dictSet
        [("invoice_number", PyVal.vstr "INV-1"), ("total_amount", PyVal.vnum (PyFloat.finite 7))]
        "status" (.vstr "INVALID"))
        "errors" (.vstr (joinSep "; " [dateMissingMsg, vendorMissingMsg])))
      "invoice_number" = some (.vstr "INV-1") := by
  constructor
  · exact (amount_retype_frame.1
      [("invoice_number", PyVal.vstr "INV-1"), ("total_amount", PyVal.vstr "7")] "7" _
      rfl (by decide) rfl).1 (PyFloat.finite 7) (by decide)
  · exact amount_retype_frame.2
      [("invoice_number", PyVal.vstr "INV-1"), ("total_amount", PyVal.vstr "7")] _
      rfl "invoice_number" (by decide) (by decide) (by decide)

/-- Counterexample for C5 as stated: the amount "0" draws the
greater-than-zero validation error, yet the field is still re-typed to the
float 0.0. -/
theorem amount_retype_counterexample :
    validate_invoice_data
      [("invoice_number", .vstr "INV-1"), ("date", .vstr "15/03/2024"),
       ("vendor", .vstr "ACME Corp"), ("total_amount", .vstr "0")] =
      .ok [("invoice_number", .vstr "INV-1"), ("date", .vstr "15/03/2024"),
        ("vendor", .vstr "ACME Corp"), ("total_amount", .vnum (.finite 0)),
        ("status", .vstr "INVALID"),
        ("errors", .vstr "Total amount '0' must be greater than zero.")] ∧
    pyFloatOfString (cleanAmount "0") = some (.finite 0) ∧
    pyFloatLe0 (.finite 0) = true := by
  refine ⟨rfl, rfl, by decide⟩

/-- Claim C6 (amended): on inputs whose truthy date, vendor and
total_amount values are strings — the shape every pipeline-produced record
has — the validator never throws and always returns a record with status
set to VALID or INVALID; but a truthy non-string value for one of these
fields raises a TypeError (e.g. re.sub at validator.py:49 on a numeric
total_amount), so the validator is not exception-free on arbitrary
malformed field values. -/
theorem validator_welltyped_total :
    ∀ d : Dict, validatorSafeInput d →
      ∃ d', validate_invoice_data d = .ok d' ∧
        (dictGet? d' "status" = some (.vstr "VALID") ∨
         dictGet? d' "status" = some (.vstr "INVALID")) := by
  intro d hsafe
  obtain ⟨hdate, hvend, hamt⟩ := hsafe
  have h2 : ∃ e2, dateErrors d = .ok e2 := by
    unfold dateErrors
    cases hb : pyTruthy (dGetN d "date") with
    | false => exact ⟨[dateMissingMsg], rfl⟩
    | true =>
        obtain ⟨s, hs⟩ := hdate hb
        rw [hs]
        exact ⟨if (parse_date s).isSome then [] else [dateFmtMsg s], rfl⟩
  have h3 : ∃ e3, vendorErrors d = .ok e3 := by
    unfold vendorErrors
    cases hb : pyTruthy (dGetN d "vendor") with
    | false => exact ⟨[vendorMissingMsg], rfl⟩
    | true =>
        obtain ⟨s, hs⟩ := hvend hb
        rw [hs]
        exact ⟨if s.length < 3 then [vendorShortMsg s] else [], rfl⟩
  have h4 : ∃ e4 d2, amountStep d = .ok (e4, d2) := by
    unfold amountStep
    cases hb : pyTruthy (dGetN d "total_amount") with
    | false => exact ⟨[amtMissingMsg], d, rfl⟩
    | true =>
        obtain ⟨s, hs⟩ := hamt hb
        rw [hs]
        show ∃ e4 d2, (match pyFloatOfString (cleanAmount s) with
          | some x => Except.ok ((if pyFloatLe0 x then [amtGtZeroMsg s] else []),
              dictSet d "total_amount" (PyVal.vnum x))
          | Option.none => Except.ok ([amtNotNumMsg s], d)) = Except.ok (e4, d2)
        cases hp : pyFloatOfString (cleanAmount s) with
        | none => exact ⟨[amtNotNumMsg s], d, rfl⟩
        | some x =>
            exact ⟨if pyFloatLe0 x then [amtGtZeroMsg s] else [],
              dictSet d "total_amount" (.vnum x), rfl⟩
  obtain ⟨e2, h2⟩ := h2
  obtain ⟨e3, h3⟩ := h3
  obtain ⟨e4, d2, h4⟩ := h4
  have hfe : validateFieldsErrors d = .ok (invoiceNumErrors d ++ e2 ++ e3 ++ e4, d2) := by
    unfold validateFieldsErrors
    rw [h2, h3, h4]
  refine ⟨_, validate_of_fields d _ d2 hfe, ?_⟩
  rw [dictGet?_set_ne _ _ _ _ (by decide), dictGet?_set_self]
  cases he : (invoiceNumErrors d ++ e2 ++ e3 ++ e4).isEmpty with
  | true =>
      left
      rfl
  | false =>
      right
      rfl

/-- Witness for C6: a fully-typed record validates without an exception. -/
theorem validator_welltyped_total_witness :
    ∃ d', validate_invoice_data
      [("invoice_number", PyVal.vstr "I-1"), ("date", PyVal.vstr "2024-03-15"),
       ("vendor", PyVal.vstr "ACME"), ("total_amount", PyVal.vstr "10.00")] = .ok d' ∧
      (dictGet? d' "status" = some (.vstr "VALID") ∨
       dictGet? d' "status" = some (.vstr "INVALID")) :=
  validator_welltyped_total
    [("invoice_number", PyVal.vstr "I-1"), ("date", PyVal.vstr "2024-03-15"),
     ("vendor", PyVal.vstr "ACME"), ("total_amount", PyVal.vstr "10.00")]
    ⟨fun _ => ⟨"2024-03-15", rfl⟩, fun _ => ⟨"ACME", rfl⟩, fun _ => ⟨"10.00", rfl⟩⟩

/-- Counterexample for C6 as stated: a numeric (non-string) total_amount
makes the validator raise a TypeError instead of returning a record. -/
theorem validator_typeerror_counterexample :
    validate_invoice_data [("total_amount", PyVal.vint 5)] =
      .error (.typeError "expected string or bytes-like object") := rfl

/-- Claim C7: for every non-throwing validation run, the resulting status
is INVALID exactly when the accumulated error list is nonempty (and VALID
otherwise); all four field rules are evaluated regardless of earlier
failures — each of the four missing-field messages appears exactly when
its field is falsy, whatever the other fields hold — and a truthy string
amount that does not parse, or parses to a value <= 0, contributes its
error and forces INVALID, while a value > 0 contributes no amount-related
error. -/
theorem validator_status_errors :
    ∀ (d : Dict) (errs : List String) (d2 d' : Dict),
      validateFieldsErrors d = .ok (errs, d2) →
      validate_invoice_data d = .ok d' →
      ((dictGet? d' "status" = some (.vstr "INVALID") ↔ errs ≠ [])
      ∧ (dictGet? d' "status" = some (.vstr "INVALID") ∨
         dictGet? d' "status" = some (.vstr "VALID"))
      ∧ (invMissingMsg ∈ errs ↔ pyTruthy (dGetN d "invoice_number") = false)
      ∧ (dateMissingMsg ∈ errs ↔ pyTruthy (dGetN d "date") = false)
      ∧ (vendorMissingMsg ∈ errs ↔ pyTruthy (dGetN d "vendor") = false)
      ∧ (amtMissingMsg ∈ errs ↔ pyTruthy (dGetN d "total_amount") = false)
      ∧ (∀ s, dGetN d "total_amount" = .vstr s → s ≠ "" →
          ((pyFloatOfString (cleanAmount s) = Option.none →
            amtNotNumMsg s ∈ errs ∧ dictGet? d' "status" = some (.vstr "INVALID"))
          ∧ (∀ x, pyFloatOfString (cleanAmount s) = some x → pyFloatLe0 x = true →
            amtGtZeroMsg s ∈ errs ∧ dictGet? d' "status" = some (.vstr "INVALID"))
          ∧ (∀ x, pyFloatOfString (cleanAmount s) = some x → pyFloatGt0 x = true →
            amtGtZeroMsg s ∉ errs ∧ amtNotNumMsg s ∉ errs ∧ amtMissingMsg ∉ errs)))) := by
  intro d errs d2 d' hfe hv
  have hveq := validate_of_fields d errs d2 hfe
  rw [hveq] at hv
  have hd' := ((Except.ok.injEq _ _).mp hv).symm
  have hstat : dictGet? d' "status" =
      some (.vstr (if errs.isEmpty then "VALID" else "INVALID")) := by
    rw [hd', dictGet?_set_ne _ _ _ _ (by decide), dictGet?_set_self]
  have hstat_iff : dictGet? d' "status" = some (.vstr "INVALID") ↔ errs ≠ [] := by
    cases errs with
    | nil =>
        simp only [List.isEmpty_nil, if_true] at hstat
        constructor
        · intro h
          rw [hstat] at h
          exact absurd h (by decide)
        · intro h
          exact absurd rfl h
    | cons m ms =>
        simp only [List.isEmpty_cons, Bool.false_eq_true, if_false] at hstat
        constructor
        · intro _
          exact List.cons_ne_nil m ms
        · intro _
          exact hstat
  obtain ⟨hi1, hi2, hi3, hi4⟩ := errs_missing_iffs d errs d2 hfe
  refine ⟨hstat_iff, ?_, hi1, hi2, hi3, hi4, ?_⟩
  · rw [hstat]
    cases errs.isEmpty with
    | true => right; rfl
    | false => left; rfl
  · intro s hget hs
    obtain ⟨hc1, hc2, hc3⟩ := errs_amount_cases d errs d2 hfe s hget hs
    refine ⟨?_, ?_, hc3⟩
    · intro hp
      have hm := hc1 hp
      exact ⟨hm, hstat_iff.mpr (List.ne_nil_of_mem hm)⟩
    · intro x hp hle
      have hm := hc2 x hp hle
      exact ⟨hm, hstat_iff.mpr (List.ne_nil_of_mem hm)⟩

/-- Witness for C7: a record whose only field is the amount "-3" validates
to INVALID with the three missing messages and the non-positive-amount
error. -/
theorem validator_status_errors_witness :
    dictGet? (dictSet (dictSet [("total_amount", PyVal.vnum (PyFloat.finite (-3)))]
        "status" (.vstr "INVALID"))
        "errors" (.vstr (joinSep "; "
          [invMissingMsg, dateMissingMsg, vendorMissingMsg, amtGtZeroMsg "-3"])))
      "status" = some (.vstr "INVALID") :=
  ((validator_status_errors [("total_amount", PyVal.vstr "-3")]
      [invMissingMsg, dateMissingMsg, vendorMissingMsg, amtGtZeroMsg "-3"]
      [("total_amount", PyVal.vnum (PyFloat.finite (-3)))] _
      rfl rfl).1).mpr (by decide)

/-- Claim C1 (amended): whenever some pattern match parses (after
stripping currency symbols and commas) to a strictly positive value, the
heuristic returns the raw formatted string of a candidate whose parsed
value dominates every candidate's value — the maximum across all
collected matches of the six currency patterns (zero-valued and malformed
candidates having been discarded without error); in particular on text
containing the figures fifty dollars, twelve hundred dollars and
seventy-five and a quarter dollars it returns "1,200.00". -/
theorem amount_extraction_max :
    (∀ text : String, amountCandidates text ≠ [] →
      ∃ v s, intelligent_amount_extraction text = some s ∧
        (v, s) ∈ amountCandidates text ∧
        ∀ p ∈ amountCandidates text, pyFloatLe p.1 v = true)
    ∧ intelligent_amount_extraction "$50 $1,200.00 $75.25" = some "1,200.00" := by
  constructor
  · intro text hne
    obtain ⟨v, s, rest, hsort, hmem, hmax⟩ :=
      sortDesc_headMax (amountCandidates text) (amountCandidates_gt0 text) hne
    refine ⟨v, s, ?_, hmem, hmax⟩
    unfold intelligent_amount_extraction
    rw [hsort]
  · decide

/-- Witness for C1: the maximality clause realized at a one-figure text. -/
theorem amount_extraction_max_witness :
    ∃ v s, intelligent_amount_extraction "$9.99" = some s ∧
      (v, s) ∈ amountCandidates "$9.99" ∧
      ∀ p ∈ amountCandidates "$9.99", pyFloatLe p.1 v = true :=
  amount_extraction_max.1 "$9.99" (by decide)

/-- Counterexample for C1 as stated: the text consisting of the single
monetary figure zero dollars is matched by the currency patterns and
parses to 0, yet the heuristic returns no result instead of the formatted
string of the (only, hence largest) figure, because candidates must parse
strictly positive. -/
theorem amount_extraction_zero_counterexample :
    findallS (rchr '$') amtBody1 "$0.00" = ["0.00"] ∧
    pyFloatOfString (cleanAmount "0.00") = some (PyFloat.finite 0) ∧
    intelligent_amount_extraction "$0.00" = Option.none := by
  refine ⟨by decide, by decide, by decide⟩

/-- Claim C10: a string produced by the total-amount heuristic always
parses, after stripping dollar signs and commas, to a strictly positive
value — zero or malformed candidates are discarded — so such an amount can
never draw the validator's greater-than-zero error. -/
theorem amount_heuristic_positive :
    ∀ (text s : String), intelligent_amount_extraction text = some s →
      ∃ v, pyFloatOfString (cleanAmount s) = some v ∧ pyFloatGt0 v = true ∧
        ∀ (d : Dict) (errs : List String) (d2 : Dict),
          dGetN d "total_amount" = .vstr s →
          validateFieldsErrors d = .ok (errs, d2) →
          amtGtZeroMsg s ∉ errs := by
  intro text s hres
  unfold intelligent_amount_extraction at hres
  cases hsort : sortDesc (amountCandidates text) with
  | nil =>
      rw [hsort] at hres
      cases hres
  | cons p rest =>
      rw [hsort] at hres
      have hres' : some p.2 = some s := hres
      have hps : p.2 = s := (Option.some.injEq _ _).mp hres'
      have hmem : p ∈ sortDesc (amountCandidates text) := by
        rw [hsort]
        exact List.mem_cons_self p rest
      have hmem' : p ∈ amountCandidates text := (mem_sortDesc p _).mp hmem
      obtain ⟨hparse, hgt⟩ := amountCandidates_spec text p hmem'
      subst hps
      refine ⟨p.1, hparse, hgt, ?_⟩
      intro d errs d2 hget hfe
      have hs : p.2 ≠ "" := by
        intro hcon
        rw [hcon] at hparse
        have hnone : pyFloatOfString (cleanAmount "") = Option.none := by decide
        rw [hnone] at hparse
        cases hparse
      obtain ⟨hc1, hc2, hc3⟩ := errs_amount_cases d errs d2 hfe p.2 hget hs
      exact (hc3 p.1 hparse hgt).1

/-- Witness for C10: the heuristic output "12.50" parses positive and
draws no greater-than-zero error. -/
theorem amount_heuristic_positive_witness :
    ∃ v, pyFloatOfString (cleanAmount "12.50") = some v ∧ pyFloatGt0 v = true ∧
      ∀ (d : Dict) (errs : List String) (d2 : Dict),
        dGetN d "total_amount" = .vstr "12.50" →
        validateFieldsErrors d = .ok (errs, d2) →
        amtGtZeroMsg "12.50" ∉ errs :=
  amount_heuristic_positive "Total: $12.50" "12.50" (by decide)
